import Mathlib

/-
Verification development for the spreadsheet structural-analysis and
chart-reconstruction engine (src/lib/excelAnalyzer.ts and the chart
renderer half of src/lib/openai.ts).

The embedding models JavaScript cell values with a closed sum type
`CellValue`.  Numbers carried by cells are modelled as exact rationals
(the spreadsheet reader never produces NaN or infinite cell values);
strings are lists of characters.  JS `parseFloat` is modelled exactly on
its grammar (sign, digits, fraction, exponent, the `Infinity` literal),
returning `none` for NaN; exponent arithmetic is exact rational
arithmetic.  Character classes (`\s`, `[a-z]`, ...) are modelled by their
ASCII subsets, which is what the analysed spreadsheets contain.
-/

set_option maxRecDepth 10000

deriving instance DecidableEq for Except

-- ===================== JS values =====================

/-- A JS number that is not NaN: finite (exact rational) or an infinity. -/
inductive JsNum where
  | fin (q : ℚ)
  | posInf
  | negInf
deriving DecidableEq

/-- A spreadsheet cell value as produced by the workbook reader
(`sheet_to_json` with `defval: null`): a number, a string, a boolean, a
date object, or the null/undefined/blank marker. -/
inductive CellValue where
  | num (q : ℚ)
  | str (s : List Char)
  | boolV (b : Bool)
  | date
  | null
deriving DecidableEq

/-- `Number.isInteger` on a non-NaN JS number. -/
def JsNum.isInt : JsNum → Bool
  | .fin q => q.den = 1
  | _ => false

-- ===================== character utilities =====================

/-- The ASCII part of the JS `\s` character class (and of `String.trim`). -/
def isWsChar (c : Char) : Bool :=
  c = ' ' ∨ c = Char.ofNat 9 ∨ c = Char.ofNat 10 ∨ c = Char.ofNat 13 ∨
    c = Char.ofNat 11 ∨ c = Char.ofNat 12

/-- JS `String.prototype.trim` (ASCII whitespace). -/
def trimC (s : List Char) : List Char :=
  ((s.dropWhile isWsChar).reverse.dropWhile isWsChar).reverse

/-- Lower-case a string character by character (ASCII, as in JS for the
inputs at hand). -/
def toLowerList (s : List Char) : List Char := s.map Char.toLower

/-- Digits of a decimal numeral folded to a natural number, as JS
`parseInt` does on an all-digit string. -/
def digitsToNat (l : List Char) : ℕ :=
  l.foldl (fun a c => a * 10 + (c.toNat - 48)) 0

-- ===================== exact rationals, kernel-reducibly =====================

/-- Fuel-indexed Euclidean gcd; fuel `m + 1` always suffices. -/
def fgcd : ℕ → ℕ → ℕ → ℕ
  | 0, _, n => n
  | fuel + 1, m, n => if m = 0 then n else fgcd fuel (n % m) m

/-- A gcd that the kernel can evaluate (plain `Nat.gcd` is defined by
well-founded recursion and does not reduce definitionally). -/
def kgcd (m n : ℕ) : ℕ := fgcd (m + 1) m n

lemma fgcd_eq : ∀ fuel m n, m < fuel → fgcd fuel m n = Nat.gcd m n := by
  intro fuel
  induction fuel with
  | zero => intro m n h; omega
  | succ fuel ih =>
    intro m n h
    by_cases hm : m = 0
    · subst hm; simp [fgcd]
    · rw [fgcd, if_neg hm,
        ih (n % m) m (by
          have := Nat.mod_lt n (Nat.pos_of_ne_zero hm)
          omega)]
      exact (Nat.gcd_rec m n).symm

lemma kgcd_eq (m n : ℕ) : kgcd m n = Nat.gcd m n :=
  fgcd_eq _ _ _ (Nat.lt_succ_self m)

/-- The exact rational `n / d`, built directly in reduced `Rat` form so
that the kernel can evaluate it (the library's rational arithmetic goes
through `Nat.gcd` and gets stuck). -/
def mkRatK (n : ℤ) (d : ℕ) : ℚ :=
  if hd : d = 0 then 0
  else
    ⟨if n < 0 then -((n.natAbs / kgcd n.natAbs d : ℕ) : ℤ)
      else ((n.natAbs / kgcd n.natAbs d : ℕ) : ℤ),
     d / kgcd n.natAbs d,
     by
       rw [kgcd_eq]
       have hg : 0 < Nat.gcd n.natAbs d :=
         Nat.gcd_pos_of_pos_right _ (Nat.pos_of_ne_zero hd)
       exact Nat.ne_of_gt
         (Nat.div_pos (Nat.le_of_dvd (Nat.pos_of_ne_zero hd) (Nat.gcd_dvd_right _ _)) hg),
     by
       rw [kgcd_eq]
       have hg : 0 < Nat.gcd n.natAbs d :=
         Nat.gcd_pos_of_pos_right _ (Nat.pos_of_ne_zero hd)
       have hcop := Nat.coprime_div_gcd_div_gcd (m := n.natAbs) (n := d) hg
       by_cases hn : n < 0
       · rw [if_pos hn, Int.natAbs_neg, Int.natAbs_ofNat]; exact hcop
       · rw [if_neg hn, Int.natAbs_ofNat]; exact hcop⟩

-- ===================== JS parseFloat =====================

/-- Exponent of a decimal literal: parses an optional `[eE][+-]?digits`
suffix; an incomplete exponent contributes exponent 0, exactly as JS
`parseFloat` ignores it. -/
def expValOf (t : List Char) : ℤ :=
  match t with
  | c :: u =>
    if c = 'e' ∨ c = 'E' then
      match u with
      | d :: w =>
        if d = '+' then
          (if w.takeWhile Char.isDigit = [] then 0
           else (digitsToNat (w.takeWhile Char.isDigit) : ℤ))
        else if d = '-' then
          (if w.takeWhile Char.isDigit = [] then 0
           else -(digitsToNat (w.takeWhile Char.isDigit) : ℤ))
        else
          (if u.takeWhile Char.isDigit = [] then 0
           else (digitsToNat (u.takeWhile Char.isDigit) : ℤ))
      | [] => 0
    else 0
  | [] => 0

/-- Exact value of the decimal literal `±ds.fs × 10^e`, as the single
fraction `±(ds·10^k + fs) · 10^max(e,0) / (10^k · 10^max(-e,0))` with
`k` the number of fractional digits. -/
def decLitVal (pos : Bool) (ds fs : List Char) (e : ℤ) : ℚ :=
  mkRatK
    ((if pos then 1 else -1) *
      ((digitsToNat ds * 10 ^ fs.length + digitsToNat fs : ℕ) : ℤ) * 10 ^ e.toNat)
    (10 ^ fs.length * 10 ^ (-e).toNat)

/-- Magnitude part of JS `parseFloat` after the optional sign: either the
`Infinity` literal or `digits [. digits] [exp]` with at least one digit;
`none` models NaN. -/
def parseMag (l : List Char) (pos : Bool) : Option JsNum :=
  if ("Infinity".toList).isPrefixOf l then
    some (if pos then JsNum.posInf else JsNum.negInf)
  else
    let ds := l.takeWhile Char.isDigit
    let t1 := l.drop ds.length
    let fs := if t1.headD 'x' = '.' then (t1.drop 1).takeWhile Char.isDigit else ([] : List Char)
    let t2 := if t1.headD 'x' = '.' then (t1.drop 1).drop fs.length else t1
    if ds = [] ∧ fs = [] then none
    else some (JsNum.fin (decLitVal pos ds fs (expValOf t2)))

/-- Signed part of JS `parseFloat`. -/
def parseNum : List Char → Option JsNum
  | [] => none
  | c :: r =>
    if c = '+' then parseMag r true
    else if c = '-' then parseMag r false
    else parseMag (c :: r) true

/-- JS `parseFloat`: skip leading whitespace, parse the longest decimal
literal prefix; `none` models NaN. -/
def jsParseFloat (s : List Char) : Option JsNum :=
  parseNum (s.dropWhile isWsChar)

-- ===================== column letters =====================

/-- Fuel-indexed body of `getColumnLetter`; fuel `n+1` always suffices
since the loop index drops strictly. -/
def getColumnLetterAux : ℕ → ℕ → List Char
  | 0, _ => []
  | fuel + 1, n =>
    if n < 26 then [Char.ofNat (n % 26 + 65)]
    else getColumnLetterAux fuel (n / 26 - 1) ++ [Char.ofNat (n % 26 + 65)]

/-- `getColumnLetter` from excelAnalyzer.ts: zero-based column index to
its letter string (0 = A, 25 = Z, 26 = AA, ...).  The JS
`while (index >= 0)` loop prepends `chr(index % 26 + 65)` and sets
`index = floor(index / 26) - 1`. -/
def getColumnLetter (n : ℕ) : List Char := getColumnLetterAux (n + 1) n

/-- `colToNum` from openai.ts: uppercases the letters and folds
`num = num * 26 + (code - 64)`, returning `num - 1` (zero-based).  The
result is an integer because row/column coordinates in the resolver are
JS numbers that may go negative. -/
def colToNum (col : List Char) : ℤ :=
  (col.foldl (fun a c => a * 26 + ((c.toUpper.toNat : ℤ) - 64)) 0) - 1

lemma char_upper_toNat_eq : ∀ k, k < 91 → 65 ≤ k → ((Char.ofNat k).toUpper).toNat = k := by
  decide

lemma getColumnLetterAux_foldl (fuel : ℕ) :
    ∀ n : ℕ, n < fuel →
      ((getColumnLetterAux fuel n).foldl
        (fun a c => a * 26 + ((c.toUpper.toNat : ℤ) - 64)) 0) = (n : ℤ) + 1 := by
  induction fuel with
  | zero => intro n h; omega
  | succ fuel ih =>
    intro n h
    by_cases h26 : n < 26
    · have hm : n % 26 = n := Nat.mod_eq_of_lt h26
      have hc : ((Char.ofNat (n % 26 + 65)).toUpper).toNat = n % 26 + 65 :=
        char_upper_toNat_eq _ (by omega) (by omega)
      simp only [getColumnLetterAux, if_pos h26, List.foldl_cons, List.foldl_nil, hc]
      push_cast
      omega
    · have hlt : n / 26 - 1 < fuel := by
        have h1 : n / 26 ≤ n := Nat.div_le_self n 26
        have h2 : n / 26 < n := Nat.div_lt_self (by omega) (by omega)
        omega
      have hc : ((Char.ofNat (n % 26 + 65)).toUpper).toNat = n % 26 + 65 :=
        char_upper_toNat_eq _ (by
          have := Nat.mod_lt n (y := 26) (by omega)
          omega) (by omega)
      have hdm : 26 * (n / 26) + n % 26 = n := Nat.div_add_mod n 26
      have hdiv : 1 ≤ n / 26 := by
        rw [Nat.le_div_iff_mul_le (by omega)]
        omega
      simp only [getColumnLetterAux, if_neg h26, List.foldl_append, List.foldl_cons,
        List.foldl_nil, ih _ hlt, hc]
      push_cast
      have hcast : ((n / 26 - 1 : ℕ) : ℤ) = (n / 26 : ℕ) - 1 := by
        omega
      rw [hcast]
      have : ((n / 26 : ℕ) : ℤ) * 26 + ((n % 26 : ℕ) : ℤ) = (n : ℤ) := by
        omega
      ring_nf
      omega

/-- C5: for every natural number `n` in `[0, 1000]`, converting the
zero-based column index to its letter string with `getColumnLetter` and
converting that string back with `colToNum` returns `n`.  (The proof in
fact covers every `n`.) -/
theorem colToNum_getColumnLetter (n : ℕ) (h : n ≤ 1000) :
    colToNum (getColumnLetter n) = (n : ℤ) := by
  unfold colToNum getColumnLetter
  rw [getColumnLetterAux_foldl (n + 1) n (Nat.lt_succ_self n)]
  ring

/-- Witness for C5 at the concrete inputs 0, 27 and 1000. -/
theorem colToNum_getColumnLetter_witness :
    (0 ≤ 1000 ∧ colToNum (getColumnLetter 0) = 0) ∧
      (27 ≤ 1000 ∧ colToNum (getColumnLetter 27) = 27) ∧
      (1000 ≤ 1000 ∧ colToNum (getColumnLetter 1000) = 1000) :=
  ⟨⟨by decide, colToNum_getColumnLetter 0 (by decide)⟩,
   ⟨by decide, colToNum_getColumnLetter 27 (by decide)⟩,
   ⟨by decide, colToNum_getColumnLetter 1000 (by decide)⟩⟩

-- ===================== numeric-noise stripping =====================

/-- The classifier's sample-side stripping `val.replace(/[,$%]/g, '')`. -/
def stripCommaDollarPct (s : List Char) : List Char :=
  s.filter (fun c => ¬(c = ',' ∨ c = '$' ∨ c = '%'))

/-- `extractNumericValue`'s stripping `val.replace(/[,$%\s]/g, '')`,
written as the comma/dollar/percent pass followed by the whitespace pass
(one regex pass in the source; the composition removes the same
characters). -/
def stripCommaDollarPctWs (s : List Char) : List Char :=
  (stripCommaDollarPct s).filter (fun c => !(isWsChar c))

/-- `extractNumericValue` from excelAnalyzer.ts: a non-NaN number passes
through; a string is stripped of `,$%` and whitespace and parsed with
`parseFloat`; everything else is null. -/
def extractNumericValue : CellValue → Option JsNum
  | .num q => some (.fin q)
  | .str s => jsParseFloat (stripCommaDollarPctWs s)
  | _ => none

-- ===================== date detection =====================

/-- Pattern `^\d{4}-\d{2}-\d{2}$`. -/
def matchYmdDash (t : List Char) : Bool :=
  match t with
  | [a, b, c, d, e, f, g, h, i, j] =>
    a.isDigit && b.isDigit && c.isDigit && d.isDigit && (e == '-') &&
      f.isDigit && g.isDigit && (h == '-') && i.isDigit && j.isDigit
  | _ => false

/-- Pattern `^\d{2}\/\d{2}\/\d{4}$`. -/
def matchMdySlash (t : List Char) : Bool :=
  match t with
  | [a, b, c, d, e, f, g, h, i, j] =>
    a.isDigit && b.isDigit && (c == '/') && d.isDigit && e.isDigit &&
      (f == '/') && g.isDigit && h.isDigit && i.isDigit && j.isDigit
  | _ => false

/-- Pattern `^\d{2}-\d{2}-\d{4}$`. -/
def matchMdyDash (t : List Char) : Bool :=
  match t with
  | [a, b, c, d, e, f, g, h, i, j] =>
    a.isDigit && b.isDigit && (c == '-') && d.isDigit && e.isDigit &&
      (f == '-') && g.isDigit && h.isDigit && i.isDigit && j.isDigit
  | _ => false

/-- Pattern `^\d{1,2}\/\d{1,2}\/\d{2,4}$`. -/
def matchShortDate (t : List Char) : Bool :=
  let d1 := t.takeWhile Char.isDigit
  let r1 := t.drop d1.length
  if d1.length < 1 ∨ 2 < d1.length then false
  else
    match r1 with
    | [] => false
    | c :: r2 =>
      if ¬(c = '/') then false
      else
        let d2 := r2.takeWhile Char.isDigit
        let r3 := r2.drop d2.length
        if d2.length < 1 ∨ 2 < d2.length then false
        else
          match r3 with
          | [] => false
          | c2 :: r4 =>
            if ¬(c2 = '/') then false
            else
              let d3 := r4.takeWhile Char.isDigit
              decide (2 ≤ d3.length ∧ d3.length ≤ 4 ∧ r4.drop d3.length = [])

/-- The month-name abbreviations of pattern
`^(Jan|Feb|Mar|Apr|May|Jun|Jul|Aug|Sep|Oct|Nov|Dec)/i`. -/
def monthAbbrevs : List (List Char) :=
  [("jan".toList), ("feb".toList), ("mar".toList), ("apr".toList),
   ("may".toList), ("jun".toList), ("jul".toList), ("aug".toList),
   ("sep".toList), ("oct".toList), ("nov".toList), ("dec".toList)]

/-- `isDateString` from excelAnalyzer.ts: the trimmed string matches one
of the five date patterns. -/
def isDateString (s : List Char) : Bool :=
  let t := trimC s
  matchYmdDash t || matchMdySlash t || matchMdyDash t || matchShortDate t ||
    monthAbbrevs.any (fun m => m.isPrefixOf (toLowerList t))

-- ===================== column type detection =====================

/-- The five column types of the classifier. -/
inductive RawColumnType where
  | numeric
  | categorical
  | text
  | date
  | boolean
deriving DecidableEq

/-- Result record of `detectColumnType`. -/
structure DetectResult where
  type : RawColumnType
  uniqueCount : Option ℕ
deriving DecidableEq

/-- The four counters of the classifier's sampling loop. -/
inductive Bucket where
  | boolean
  | date
  | numeric
  | text
deriving DecidableEq

/-- One iteration of the classifier's counting loop: which counter a
non-null sample value increments.  Booleans and the four literal strings
`true/false/TRUE/FALSE` are boolean; a non-NaN number is numeric; a Date
is a date; a string that parses numerically after stripping `,$%` (and is
not blank after trimming) is numeric, else a date string, else text. -/
def classifyVal : CellValue → Bucket
  | .boolV _ => .boolean
  | .num _ => .numeric
  | .date => .date
  | .str s =>
    if s = ("true".toList) ∨ s = ("false".toList) ∨ s = ("TRUE".toList) ∨ s = ("FALSE".toList) then
      .boolean
    else if (jsParseFloat (stripCommaDollarPct s)).isSome ∧ trimC s ≠ [] then .numeric
    else if isDateString s then .date
    else .text
  | .null => .text

/-- The classifier's null/blank filter `v !== null && v !== undefined && v !== ''`
(null and undefined are both modelled by `CellValue.null`). -/
def nonNullOf (values : List CellValue) : List CellValue :=
  values.filter (fun v => ¬(v = CellValue.null ∨ v = CellValue.str []))

/-- `CATEGORICAL_MAX_UNIQUE` from excelAnalyzer.ts. -/
def CATEGORICAL_MAX_UNIQUE : ℕ := 20

/-- The distinct numeric values of the full column: `new Set` over the
non-null results of `extractNumericValue` (`dedup` has the same
cardinality as the JS Set). -/
def uniqueNumsOf (allValues : List CellValue) : List JsNum :=
  (allValues.filterMap extractNumericValue).dedup

/-- `detectColumnType` from excelAnalyzer.ts.  The source compares
`count / total >= 0.8` in JS float arithmetic; since `total > 0` on these
branches, the comparison is written in the exact cross-multiplied form
`4 * total <= 5 * count`. -/
def detectColumnType (values allValues : List CellValue) : DetectResult :=
  let nonNullValues := nonNullOf values
  if nonNullValues.length = 0 then ⟨.text, none⟩
  else
    let booleanCount := nonNullValues.countP (fun v => classifyVal v = Bucket.boolean)
    let dateCount := nonNullValues.countP (fun v => classifyVal v = Bucket.date)
    let numericCount := nonNullValues.countP (fun v => classifyVal v = Bucket.numeric)
    let textCount := nonNullValues.countP (fun v => classifyVal v = Bucket.text)
    let total := nonNullValues.length
    if 4 * total ≤ 5 * booleanCount then ⟨.boolean, none⟩
    else if 4 * total ≤ 5 * dateCount then ⟨.date, none⟩
    else if 4 * total ≤ 5 * textCount then ⟨.text, none⟩
    else if 4 * total ≤ 5 * numericCount then
      let uniqueNums := uniqueNumsOf allValues
      let uniqueCount := uniqueNums.length
      if uniqueCount ≤ CATEGORICAL_MAX_UNIQUE then
        if uniqueNums.all JsNum.isInt then ⟨.categorical, some uniqueCount⟩
        else ⟨.numeric, some uniqueCount⟩
      else ⟨.numeric, some uniqueCount⟩
    else ⟨.text, none⟩

lemma bucket_counts_sum (l : List CellValue) :
    l.countP (fun v => classifyVal v = Bucket.boolean) +
      l.countP (fun v => classifyVal v = Bucket.date) +
      l.countP (fun v => classifyVal v = Bucket.numeric) +
      l.countP (fun v => classifyVal v = Bucket.text) = l.length := by
  induction l with
  | nil => simp
  | cons hd tl ih =>
    simp only [List.countP_cons, List.length_cons]
    cases h : classifyVal hd <;> simp [h] <;> omega

/-- C1: whenever at least 80% of the non-null sample values count as
numeric, the classifier returns Categorical (carrying the distinct count
over the full column) exactly when that distinct count is at most 20 and
every distinct value is an integer, and Numeric (carrying the distinct
count) otherwise. -/
theorem detectColumnType_numeric_threshold (values allValues : List CellValue)
    (h0 : nonNullOf values ≠ [])
    (h8 : 4 * (nonNullOf values).length ≤
        5 * (nonNullOf values).countP (fun v => classifyVal v = Bucket.numeric)) :
    detectColumnType values allValues =
      (if (uniqueNumsOf allValues).length ≤ CATEGORICAL_MAX_UNIQUE ∧
          (uniqueNumsOf allValues).all JsNum.isInt then
        ⟨RawColumnType.categorical, some (uniqueNumsOf allValues).length⟩
      else ⟨RawColumnType.numeric, some (uniqueNumsOf allValues).length⟩) := by
  have htot : 0 < (nonNullOf values).length := List.length_pos.mpr h0
  have hsum := bucket_counts_sum (nonNullOf values)
  simp only [detectColumnType]
  rw [if_neg (by omega), if_neg (by omega), if_neg (by omega), if_neg (by omega),
    if_pos h8]
  by_cases h20 : (uniqueNumsOf allValues).length ≤ CATEGORICAL_MAX_UNIQUE
  · by_cases hall : (uniqueNumsOf allValues).all JsNum.isInt
    · rw [if_pos h20, if_pos hall, if_pos ⟨h20, of_eq_true (eq_true hall)⟩]
    · rw [if_pos h20, if_neg hall, if_neg (by
        intro hcon
        exact hall (hcon.2))]
  · rw [if_neg h20, if_neg (by
      intro hcon
      exact h20 hcon.1)]

/-- Witness for C1: a full column of 25 distinct integer values exceeds
the 20-distinct cap and classifies as Numeric carrying count 25. -/
theorem detectColumnType_numeric_threshold_witness :
    (nonNullOf ((List.range 25).map (fun n => CellValue.num (mkRatK n 1))) ≠ [] ∧
      4 * (nonNullOf ((List.range 25).map (fun n => CellValue.num (mkRatK n 1)))).length ≤
        5 * (nonNullOf ((List.range 25).map (fun n => CellValue.num (mkRatK n 1)))).countP
          (fun v => classifyVal v = Bucket.numeric)) ∧
    detectColumnType ((List.range 25).map (fun n => CellValue.num (mkRatK n 1)))
        ((List.range 25).map (fun n => CellValue.num (mkRatK n 1))) =
      ⟨RawColumnType.numeric, some 25⟩ := by
  refine ⟨⟨by decide, by decide⟩, ?_⟩
  rw [detectColumnType_numeric_threshold _ _ (by decide) (by decide)]
  decide

-- ===================== cell reference parsing =====================

/-- The apostrophe character quoting sheet names. -/
def quoteChar : Char := Char.ofNat 39

/-- JS `String.prototype.split` on a single separator character (empty
pieces are kept). -/
def splitOnChar (ch : Char) : List Char → List (List Char)
  | [] => [[]]
  | c :: t =>
    let r := splitOnChar ch t
    if c = ch then [] :: r
    else
      match r with
      | h :: t2 => (c :: h) :: t2
      | [] => [[c]]

/-- Fallback of `parseCellReference`: split on `!`; exactly two parts
give a sheet and a range, otherwise the whole text is the range. -/
def refFallback (ref : List Char) : Option (List Char) × List Char :=
  match splitOnChar '!' ref with
  | [a, b] => (some a, b)
  | _ => (none, ref)

/-- `parseCellReference` from openai.ts: quoted sheet names
(`'Sheet Name'!Range`) first, then the unquoted `Sheet!Range` split, then
a bare range. -/
def parseCellReference (ref : List Char) : Option (List Char) × List Char :=
  match ref with
  | q :: rest =>
    if q = quoteChar then
      let inner := rest.takeWhile (fun c => ¬(c = quoteChar))
      match rest.drop inner.length with
      | c1 :: c2 :: tail =>
        if c1 = quoteChar ∧ c2 = '!' ∧ inner ≠ [] ∧ tail ≠ [] then (some inner, tail)
        else refFallback ref
      | _ => refFallback ref
    else refFallback ref
  | [] => refFallback ref

/-- Result record of `parseRange` (zero-based coordinates; rows can be
`-1` for a textual row number 0, hence integers). -/
structure ParsedRange where
  startCol : ℤ
  startRow : ℤ
  endCol : ℤ
  endRow : ℤ
  isSingleCell : Bool
deriving DecidableEq

/-- The `[A-Z]+` class under the case-insensitive flag. -/
def isRefLetter (c : Char) : Bool :=
  ('A' ≤ c ∧ c ≤ 'Z') ∨ ('a' ≤ c ∧ c ≤ 'z')

/-- `parseRange` from openai.ts: strip `$`, try `^([A-Z]+)(\d+):([A-Z]+)(\d+)$`
(case-insensitive), then `^([A-Z]+)(\d+)$`; `none` if neither matches.
The anchored regexes are decomposed with maximal-munch runs, which is
equivalent because the letter and digit classes are disjoint. -/
def parseRange (range : List Char) : Option ParsedRange :=
  let cleaned := range.filter (fun c => ¬(c = '$'))
  let l1 := cleaned.takeWhile isRefLetter
  let r1 := cleaned.drop l1.length
  let d1 := r1.takeWhile Char.isDigit
  let r2 := r1.drop d1.length
  if l1 ≠ [] ∧ d1 ≠ [] then
    match r2 with
    | [] =>
      some ⟨colToNum l1, (digitsToNat d1 : ℤ) - 1, colToNum l1, (digitsToNat d1 : ℤ) - 1, true⟩
    | c :: r3 =>
      if c = ':' then
        let l2 := r3.takeWhile isRefLetter
        let r4 := r3.drop l2.length
        let d2 := r4.takeWhile Char.isDigit
        let r5 := r4.drop d2.length
        if l2 ≠ [] ∧ d2 ≠ [] ∧ r5 = [] then
          some ⟨colToNum l1, (digitsToNat d1 : ℤ) - 1, colToNum l2, (digitsToNat d2 : ℤ) - 1, false⟩
        else none
      else none
  else none

-- ===================== data extraction =====================

/-- `sheetData[row]?.[col]`: out-of-range or negative indices read as the
null marker (JS `undefined`). -/
def cellAt (g : List (List CellValue)) (r c : ℤ) : CellValue :=
  if 0 ≤ r ∧ 0 ≤ c then (g.getD r.toNat []).getD c.toNat CellValue.null
  else CellValue.null

/-- The resolver's keep-filter `val !== null && val !== undefined && val !== ''`. -/
def nonBlankCell (v : CellValue) : Bool :=
  ¬(v = CellValue.null ∨ v = CellValue.str [])

/-- The integer interval `[a, b]` as a list (empty when `b < a`),
modelling a JS `for (i = a; i <= b; i++)` loop. -/
def intRange (a b : ℤ) : List ℤ :=
  (List.range (b + 1 - a).toNat).map (fun i : ℕ => a + (i : ℤ))

/-- `extractDataFromSheet` from openai.ts: resolve the reference's range
against the grid; single cell, vertical run, horizontal run, or 2D block
flattened column by column; row loops are additionally bounded by
`row < sheetData.length`. -/
def extractDataFromSheet (sheetData : List (List CellValue)) (reference : List Char) :
    List CellValue :=
  let range := (parseCellReference reference).2
  match parseRange range with
  | none => []
  | some parsed =>
    if parsed.isSingleCell then
      if cellAt sheetData parsed.startRow parsed.startCol ≠ CellValue.null then
        [cellAt sheetData parsed.startRow parsed.startCol]
      else []
    else if parsed.startCol = parsed.endCol then
      (intRange parsed.startRow (min parsed.endRow ((sheetData.length : ℤ) - 1))).filterMap
        (fun r =>
          if nonBlankCell (cellAt sheetData r parsed.startCol) then
            some (cellAt sheetData r parsed.startCol)
          else none)
    else if parsed.startRow = parsed.endRow then
      (intRange parsed.startCol parsed.endCol).filterMap
        (fun c =>
          if nonBlankCell (cellAt sheetData parsed.startRow c) then
            some (cellAt sheetData parsed.startRow c)
          else none)
    else
      (intRange parsed.startCol parsed.endCol).flatMap
        (fun c =>
          (intRange parsed.startRow (min parsed.endRow ((sheetData.length : ℤ) - 1))).filterMap
            (fun r =>
              if nonBlankCell (cellAt sheetData r c) then some (cellAt sheetData r c)
              else none))

/-- Spec-side description of the 2D case (spec section 4.4): the full
range flattened column-major — outer loop over columns, inner loop over
rows — with null/blank cells omitted. -/
def colMajorValues (sheetData : List (List CellValue)) (p : ParsedRange) : List CellValue :=
  (intRange p.startCol p.endCol).flatMap
    (fun c =>
      (intRange p.startRow p.endRow).filterMap
        (fun r =>
          if nonBlankCell (cellAt sheetData r c) then some (cellAt sheetData r c)
          else none))

lemma intRange_cons (a b : ℤ) (h : a ≤ b) : intRange a b = a :: intRange (a + 1) b := by
  unfold intRange
  have hk : (b + 1 - a).toNat = (b + 1 - (a + 1)).toNat + 1 := by omega
  rw [hk, List.range_succ_eq_map, List.map_cons, List.map_map]
  refine congrArg₂ _ (by push_cast; ring) (List.map_congr_left ?_)
  intro i _
  simp only [Function.comp_apply]
  push_cast
  ring

lemma intRange_nil (a b : ℤ) (h : b < a) : intRange a b = [] := by
  unfold intRange
  have hk : (b + 1 - a).toNat = 0 := by omega
  rw [hk]
  rfl

lemma le_of_mem_intRange {a b x : ℤ} (hx : x ∈ intRange a b) : a ≤ x := by
  unfold intRange at hx
  obtain ⟨i, _, rfl⟩ := List.mem_map.mp hx
  omega

lemma filterMap_intRange_truncate {α : Type} (f : ℤ → Option α) (m : ℤ)
    (hf : ∀ x, m < x → f x = none) :
    ∀ (k : ℕ) (a b : ℤ), (b + 1 - a).toNat = k →
      (intRange a (min b m)).filterMap f = (intRange a b).filterMap f := by
  intro k
  induction k with
  | zero =>
    intro a b hk
    rw [intRange_nil a b (by omega), intRange_nil a (min b m) (by omega)]
  | succ k ih =>
    intro a b hk
    have hab : a ≤ b := by omega
    by_cases ham : a ≤ m
    · rw [intRange_cons a b hab, intRange_cons a (min b m) (le_min hab ham)]
      simp only [List.filterMap_cons]
      have hih := ih (a + 1) b (by omega)
      cases hfa : f a <;> simp [hfa, hih]
    · rw [intRange_nil a (min b m) (by omega), List.filterMap_nil, eq_comm,
        List.filterMap_eq_nil_iff]
      intro x hx
      exact hf x (lt_of_lt_of_le (by omega) (le_of_mem_intRange hx))

lemma cellAt_of_length_le (g : List (List CellValue)) (r c : ℤ)
    (h : (g.length : ℤ) ≤ r) : cellAt g r c = CellValue.null := by
  unfold cellAt
  split
  · rw [List.getD_eq_default _ _ (by omega : g.length ≤ r.toNat)]
    simp [List.getD]
  · rfl

lemma parseRange_single_eq (range : List Char) (p : ParsedRange)
    (hp : parseRange range = some p) (hs : p.isSingleCell = true) :
    p.startRow = p.endRow ∧ p.startCol = p.endCol := by
  simp only [parseRange] at hp
  split at hp
  · split at hp
    · cases hp
      exact ⟨rfl, rfl⟩
    · split at hp
      · split at hp
        · cases hp
          simp at hs
        · cases hp
      · cases hp
  · cases hp

/-- C6: for every grid and every reference whose range part parses as a
multi-row, multi-column range, `extractDataFromSheet` returns exactly the
column-major flattening of the full range with null/blank cells omitted
(the source's extra `row < sheetData.length` bound drops only rows that
read as null anyway). -/
theorem extractDataFromSheet_colMajor (sheetData : List (List CellValue))
    (reference : List Char) (p : ParsedRange)
    (hp : parseRange ((parseCellReference reference).2) = some p)
    (hrow : p.startRow ≠ p.endRow) (hcol : p.startCol ≠ p.endCol) :
    extractDataFromSheet sheetData reference = colMajorValues sheetData p := by
  have hsingle : p.isSingleCell = false := by
    cases hs : p.isSingleCell
    · rfl
    · exact absurd (parseRange_single_eq _ _ hp hs).1 hrow
  simp only [extractDataFromSheet, hp]
  rw [if_neg (by simp [hsingle]), if_neg hcol, if_neg hrow]
  unfold colMajorValues
  apply List.flatMap_congr
  intro c _
  exact filterMap_intRange_truncate _ ((sheetData.length : ℤ) - 1)
    (fun r hr => by
      rw [cellAt_of_length_le sheetData r c (by omega)]
      rfl)
    _ p.startRow p.endRow rfl

/-- Witness for C6: a 2-column, 3-row grid with range `A1:B3` returns
column A's three values followed by column B's three values. -/
theorem extractDataFromSheet_colMajor_witness :
    (parseRange ((parseCellReference ("A1:B3".toList)).2) =
      some ⟨0, 0, 1, 2, false⟩ ∧ (0 : ℤ) ≠ 2 ∧ (0 : ℤ) ≠ 1) ∧
    extractDataFromSheet
        [[CellValue.str ("x".toList), CellValue.str ("p".toList)],
         [CellValue.str ("y".toList), CellValue.str ("q".toList)],
         [CellValue.str ("z".toList), CellValue.str ("r".toList)]] ("A1:B3".toList) =
      colMajorValues
        [[CellValue.str ("x".toList), CellValue.str ("p".toList)],
         [CellValue.str ("y".toList), CellValue.str ("q".toList)],
         [CellValue.str ("z".toList), CellValue.str ("r".toList)]] ⟨0, 0, 1, 2, false⟩ ∧
    colMajorValues
        [[CellValue.str ("x".toList), CellValue.str ("p".toList)],
         [CellValue.str ("y".toList), CellValue.str ("q".toList)],
         [CellValue.str ("z".toList), CellValue.str ("r".toList)]] ⟨0, 0, 1, 2, false⟩ =
      [CellValue.str ("x".toList), CellValue.str ("y".toList), CellValue.str ("z".toList),
       CellValue.str ("p".toList), CellValue.str ("q".toList), CellValue.str ("r".toList)] :=
  ⟨⟨by decide, by decide, by decide⟩,
   extractDataFromSheet_colMajor _ _ _ (by decide) (by decide) (by decide),
   by decide⟩

/-- C9: a reference whose range part parses as neither a single cell nor
a rectangular range yields the empty sequence; the resolver is a total
function, so no error can be raised. -/
theorem extractDataFromSheet_unparsable (sheetData : List (List CellValue))
    (reference : List Char)
    (h : parseRange ((parseCellReference reference).2) = none) :
    extractDataFromSheet sheetData reference = [] := by
  simp only [extractDataFromSheet, h]

/-- Witness for C9 at the unparsable reference `Sheet1!Total` over a
non-empty grid. -/
theorem extractDataFromSheet_unparsable_witness :
    parseRange ((parseCellReference ("Sheet1!Total".toList)).2) = none ∧
    extractDataFromSheet [[CellValue.str ("a".toList)]] ("Sheet1!Total".toList) = [] :=
  ⟨by decide,
   extractDataFromSheet_unparsable [[CellValue.str ("a".toList)]] ("Sheet1!Total".toList)
     (by decide)⟩

-- ===================== lenient XML scanning =====================

/-- Scan every start position left to right and return the first match,
like a JS regex search. -/
def scanFirst {α : Type} (f : List Char → Option α) : List Char → Option α
  | [] => none
  | c :: t =>
    match f (c :: t) with
    | some a => some a
    | none => scanFirst f t

/-- JS `String.prototype.includes` for a non-empty pattern. -/
def hasSub (s pat : List Char) : Bool :=
  (scanFirst (fun l => if pat.isPrefixOf l then some () else none) s).isSome

/-- Capture `([^stop]+)` followed by the literal `closeTag` at the head
of `l` (maximal munch, equivalent to the greedy regex because the class
excludes the close tag's first character). -/
def capHere (stop : Char) (closeTag : List Char) (l : List Char) : Option (List Char) :=
  let t := l.takeWhile (fun c => ¬(c = stop))
  if t = [] then none
  else if closeTag.isPrefixOf (l.drop t.length) then some t
  else none

/-- First position where `tag` matches and `inner` succeeds on the rest:
the regex `tag[\s\S]*?...` with a lazy gap. -/
def findTagThen {α : Type} (tag : List Char) (inner : List Char → Option α)
    (xml : List Char) : Option α :=
  scanFirst (fun l => if tag.isPrefixOf l then inner (l.drop tag.length) else none) xml

/-- The regex `openTag([^stop]+)closeTag`, searched from the current
position. -/
def findTagCap (openTag : List Char) (stop : Char) (closeTag : List Char)
    (xml : List Char) : Option (List Char) :=
  findTagThen openTag (capHere stop closeTag) xml

/-- The regex `tagLit\s+val="([^"]+)"` (first match in the text). -/
def findAttrVal (tagLit : List Char) (xml : List Char) : Option (List Char) :=
  findTagThen tagLit
    (fun r =>
      let w := r.takeWhile isWsChar
      if w = [] then none
      else if ("val=\"".toList).isPrefixOf (r.drop w.length) then
        capHere '"' ("\"".toList) ((r.drop w.length).drop 5)
      else none)
    xml

/-- Leftmost occurrence of `pat`: the text before it and the text after
it. -/
def splitAtSub (pat : List Char) : List Char → Option (List Char × List Char)
  | [] => none
  | c :: t =>
    if pat.isPrefixOf (c :: t) then some ([], (c :: t).drop pat.length)
    else
      match splitAtSub pat t with
      | some (a, b) => some (c :: a, b)
      | none => none

/-- The global regex `/<c:ser>([\s\S]*?)<\/c:ser>/g`: repeatedly take the
lazy body between the next `<c:ser>`/`</c:ser>` pair.  Fuel `|l|` more
than suffices since every round consumes both tags. -/
def extractSeriesBodies : ℕ → List Char → List (List Char)
  | 0, _ => []
  | fuel + 1, l =>
    match splitAtSub ("<c:ser>".toList) l with
    | none => []
    | some (_, rest) =>
      match splitAtSub ("</c:ser>".toList) rest with
      | none => []
      | some (body, rest2) => body :: extractSeriesBodies fuel rest2

-- ===================== chart definition parsing =====================

/-- One series reference of a parsed chart definition. -/
structure SeriesRef where
  name : Option (List Char)
  valueRef : List Char
  color : Option (List Char)
deriving DecidableEq

/-- `ParsedChartInfo` from openai.ts. -/
structure ParsedChartInfo where
  chartType : List Char
  horizontal : Bool
  stacked : Bool
  title : Option (List Char)
  xAxisTitle : Option (List Char)
  yAxisTitle : Option (List Char)
  categoryRef : Option (List Char)
  seriesRefs : List SeriesRef
deriving DecidableEq

/-- One `<c:ser>` body: optional name (`<c:tx>...<c:v>` text), value
reference (`<c:val>...<c:f>`, falling back to `<c:yVal>...<c:f>`),
optional color (`<a:srgbClr val="..."` prefixed with `#`); a series with
no value reference is dropped. -/
def parseSeriesBlock (seriesXml : List Char) : Option SeriesRef :=
  let name :=
    findTagThen ("<c:tx>".toList) (findTagCap ("<c:v>".toList) '<' ("</c:v>".toList)) seriesXml
  let valueRef :=
    match findTagThen ("<c:val>".toList)
        (findTagCap ("<c:f>".toList) '<' ("</c:f>".toList)) seriesXml with
    | some r => some r
    | none =>
      findTagThen ("<c:yVal>".toList)
        (findTagCap ("<c:f>".toList) '<' ("</c:f>".toList)) seriesXml
  let color := (findAttrVal ("<a:srgbClr".toList) seriesXml).map (fun h => '#' :: h)
  valueRef.map (fun vr => ⟨name, vr, color⟩)

/-- `parseChartXml` from openai.ts. -/
def parseChartXml (xml : List Char) : ParsedChartInfo :=
  let th : List Char × Bool :=
    if hasSub xml ("<c:barChart".toList) then
      (("bar".toList), decide (findAttrVal ("<c:barDir".toList) xml = some ("bar".toList)))
    else if hasSub xml ("<c:bar3DChart".toList) then
      (("bar".toList), decide (findAttrVal ("<c:barDir".toList) xml = some ("bar".toList)))
    else if hasSub xml ("<c:lineChart".toList) ∨ hasSub xml ("<c:line3DChart".toList) then
      (("line".toList), false)
    else if hasSub xml ("<c:pieChart".toList) ∨ hasSub xml ("<c:pie3DChart".toList) then
      (("pie".toList), false)
    else if hasSub xml ("<c:doughnutChart".toList) then (("doughnut".toList), false)
    else if hasSub xml ("<c:scatterChart".toList) then (("scatter".toList), false)
    else if hasSub xml ("<c:areaChart".toList) ∨ hasSub xml ("<c:area3DChart".toList) then
      (("area".toList), false)
    else if hasSub xml ("<c:radarChart".toList) then (("radar".toList), false)
    else (("bar".toList), false)
  let groupingVal := findAttrVal ("<c:grouping".toList) xml
  let stacked :=
    decide (groupingVal = some ("stacked".toList) ∨ groupingVal = some ("percentStacked".toList))
  let title0 :=
    (findTagThen ("<c:title>".toList)
      (findTagCap ("<a:t>".toList) '<' ("</a:t>".toList)) xml).map trimC
  let xT :=
    (findTagThen ("<c:catAx>".toList)
      (fun r =>
        findTagThen ("<c:title>".toList)
          (findTagCap ("<a:t>".toList) '<' ("</a:t>".toList)) r) xml).map trimC
  let yT :=
    (findTagThen ("<c:valAx>".toList)
      (fun r =>
        findTagThen ("<c:title>".toList)
          (findTagCap ("<a:t>".toList) '<' ("</a:t>".toList)) r) xml).map trimC
  let catRef :=
    findTagThen ("<c:cat>".toList) (findTagCap ("<c:f>".toList) '<' ("</c:f>".toList)) xml
  let seriesRefs := (extractSeriesBodies xml.length xml).filterMap parseSeriesBlock
  let title :=
    if title0 = none ∨ title0 = some ([] : List Char) then
      match seriesRefs.head? with
      | some s =>
        match s.name with
        | some n => if n = [] then title0 else some n
        | none => title0
      | none => title0
    else title0
  ⟨th.1, th.2, stacked, title, xT, yT, catRef, seriesRefs⟩

/-- C8: for a chart XML containing a bar-chart tag, the horizontal flag
is true exactly when the first `barDir` attribute value is `bar`, and
false when it is `col` or when there is none. -/
theorem parseChartXml_barDir (xml : List Char)
    (hbar : hasSub xml ("<c:barChart".toList) = true ∨
      hasSub xml ("<c:bar3DChart".toList) = true) :
    ((findAttrVal ("<c:barDir".toList) xml = some ("bar".toList) →
        (parseChartXml xml).horizontal = true) ∧
      ((findAttrVal ("<c:barDir".toList) xml = some ("col".toList) ∨
          findAttrVal ("<c:barDir".toList) xml = none) →
        (parseChartXml xml).horizontal = false)) := by
  have hform : (parseChartXml xml).horizontal =
      decide (findAttrVal ("<c:barDir".toList) xml = some ("bar".toList)) := by
    simp only [parseChartXml]
    rcases hbar with hb | hb3
    · rw [if_pos hb]
    · by_cases hb : hasSub xml ("<c:barChart".toList) = true
      · rw [if_pos hb]
      · rw [if_neg hb, if_pos hb3]
  constructor
  · intro hdir
    rw [hform, hdir]
    simp
  · intro hdir
    rw [hform]
    rcases hdir with hdir | hdir <;> rw [hdir] <;> simp

/-- Witness for C8 at three concrete chart XMLs: direction `bar`,
direction `col`, and no direction attribute. -/
theorem parseChartXml_barDir_witness :
    (hasSub ("<c:barChart><c:barDir val=\"bar\"/></c:barChart>".toList)
        ("<c:barChart".toList) = true ∧
      findAttrVal ("<c:barDir".toList)
          ("<c:barChart><c:barDir val=\"bar\"/></c:barChart>".toList) =
        some ("bar".toList) ∧
      (parseChartXml ("<c:barChart><c:barDir val=\"bar\"/></c:barChart>".toList)).horizontal =
        true) ∧
    (findAttrVal ("<c:barDir".toList)
          ("<c:barChart><c:barDir val=\"col\"/></c:barChart>".toList) =
        some ("col".toList) ∧
      (parseChartXml ("<c:barChart><c:barDir val=\"col\"/></c:barChart>".toList)).horizontal =
        false) ∧
    (findAttrVal ("<c:barDir".toList) ("<c:barChart/>".toList) = none ∧
      (parseChartXml ("<c:barChart/>".toList)).horizontal = false) :=
  ⟨⟨by decide, by decide,
    (parseChartXml_barDir _ (Or.inl (by decide))).1 (by decide)⟩,
   ⟨by decide,
    (parseChartXml_barDir _ (Or.inl (by decide))).2 (Or.inl (by decide))⟩,
   ⟨by decide,
    (parseChartXml_barDir _ (Or.inl (by decide))).2 (Or.inr (by decide))⟩⟩

-- ===================== JS string conversion =====================

/-- Fuel-indexed decimal printer for naturals. -/
def natToCharsAux : ℕ → ℕ → List Char
  | 0, _ => []
  | fuel + 1, n =>
    if n < 10 then [Char.ofNat (n + 48)]
    else natToCharsAux fuel (n / 10) ++ [Char.ofNat (n % 10 + 48)]

/-- Decimal string of a natural number (JS `String(n)` for naturals). -/
def natToChars (n : ℕ) : List Char := natToCharsAux (n + 1) n

/-- Fractional decimal digits of a rational in `[0, 1)`, 40 digits of
fuel — exact for the finite-decimal values the workbook reader
produces. -/
def fracDigitsOf : ℕ → ℚ → List Char
  | 0, _ => []
  | fuel + 1, x =>
    if x = 0 then []
    else
      let y := x * 10
      Char.ofNat (y.floor.toNat + 48) :: fracDigitsOf fuel (y - (y.floor : ℚ))

/-- JS `String(n)` for a finite number: sign, integer digits, and the
fractional digits when non-zero. -/
def numToString (q : ℚ) : List Char :=
  let sign : List Char := if q < 0 then ['-'] else []
  let a : ℚ := if q < 0 then -q else q
  if a - (a.floor : ℚ) = 0 then sign ++ natToChars a.floor.toNat
  else sign ++ natToChars a.floor.toNat ++ '.' :: fracDigitsOf 40 (a - (a.floor : ℚ))

/-- JS `String(v)` on cell values; a Date's string form is abstracted as
a fixed non-numeric text (the exact JS form is locale output such as
`Mon Jan 01 ...`, equally non-numeric). -/
def cellToString : CellValue → List Char
  | .num q => numToString q
  | .str s => s
  | .boolV b => if b then ("true".toList) else ("false".toList)
  | .date => ("DateObject".toList)
  | .null => ("null".toList)

-- ===================== chart model builder =====================

/-- One dataset of the renderable chart specification. -/
structure ChartDataset where
  label : List Char
  data : List ℚ
  color : Option (List Char)
deriving DecidableEq

/-- `ChartData` from openai.ts (the renderer-agnostic chart spec). -/
structure ChartData where
  type : List Char
  horizontal : Bool
  stacked : Bool
  title : Option (List Char)
  xAxisTitle : Option (List Char)
  yAxisTitle : Option (List Char)
  labels : List (List Char)
  datasets : List ChartDataset
deriving DecidableEq

/-- The builder's per-entry coercion (openai.ts, `buildChartData`):
null/blank reads as NaN; a number passes through (grid numbers are
finite, so the `isFinite` filter keeps them); anything else goes through
`parseFloat(String(v))`, and NaN or infinite results are dropped. -/
def coerceChartNum (v : CellValue) : Option ℚ :=
  if v = CellValue.null ∨ v = CellValue.str [] then none
  else
    match v with
    | .num q => some q
    | w =>
      match jsParseFloat (cellToString w) with
      | some (.fin q) => some q
      | _ => none

/-- A series' numeric sequence: raw extraction then coercion-filter. -/
def seriesNumData (sheetData : List (List CellValue)) (r : List Char) : List ℚ :=
  (extractDataFromSheet sheetData r).filterMap coerceChartNum

/-- The builder's resolved label strings (empty when there is no category
reference). -/
def resolvedLabels (xml : List Char) (sheetData : List (List CellValue)) :
    List (List Char) :=
  match (parseChartXml xml).categoryRef with
  | some r => (extractDataFromSheet sheetData r).map cellToString
  | none => []

/-- The numeric sequences of the series that survive the empty-data
filter. -/
def survivingSeqs (xml : List Char) (sheetData : List (List CellValue)) :
    List (List ℚ) :=
  ((parseChartXml xml).seriesRefs.map (fun s => seriesNumData sheetData s.valueRef)).filter
    (fun l => ¬(l = []))

/-- `Math.min(...lengths)` over a list of sequences (only used
non-empty). -/
def minLenOf (ls : List (List ℚ)) : ℕ :=
  match ls.map List.length with
  | [] => 0
  | n :: ns => ns.foldl min n

/-- `series.name || 'Series'` (an empty or missing name falls back). -/
def jsLabelOr (name : Option (List Char)) : List Char :=
  match name with
  | some n => if n = [] then ("Series".toList) else n
  | none => ("Series".toList)

/-- `buildChartData` from openai.ts. -/
def buildChartData (chartXml : List Char) (sheetData : List (List CellValue)) :
    Option ChartData :=
  let parsed := parseChartXml chartXml
  let labels0 :=
    match parsed.categoryRef with
    | some r => (extractDataFromSheet sheetData r).map cellToString
    | none => ([] : List (List Char))
  let datasets0 :=
    (parsed.seriesRefs.map (fun series =>
      ({ label := jsLabelOr series.name,
         data := (extractDataFromSheet sheetData series.valueRef).filterMap coerceChartNum,
         color := series.color } : ChartDataset))).filter (fun ds => ¬(ds.data = []))
  if datasets0 = [] then none
  else
    let dataLength := minLenOf (datasets0.map (fun ds => ds.data))
    let datasets := datasets0.map (fun ds => { ds with data := ds.data.take dataLength })
    let labels :=
      if labels0.length = 0 then (List.range dataLength).map (fun i => natToChars (i + 1))
      else labels0.take dataLength
    some { type := parsed.chartType, horizontal := parsed.horizontal,
           stacked := parsed.stacked, title := parsed.title,
           xAxisTitle := parsed.xAxisTitle, yAxisTitle := parsed.yAxisTitle,
           labels := labels, datasets := datasets }

lemma foldl_min_le_init (ns : List ℕ) (n : ℕ) : ns.foldl min n ≤ n := by
  induction ns generalizing n with
  | nil => exact le_refl n
  | cons m t ih => exact le_trans (ih (min n m)) (min_le_left n m)

lemma foldl_min_le_mem {x : ℕ} (ns : List ℕ) (n : ℕ) (hx : x ∈ ns) :
    ns.foldl min n ≤ x := by
  induction ns generalizing n with
  | nil => cases hx
  | cons m t ih =>
    rcases List.mem_cons.mp hx with rfl | hmem
    · exact le_trans (foldl_min_le_init t (min n x)) (min_le_right n x)
    · exact ih (min n m) hmem

lemma minLenOf_le {l : List ℚ} {ls : List (List ℚ)} (h : l ∈ ls) :
    minLenOf ls ≤ l.length := by
  cases ls with
  | nil => cases h
  | cons a t =>
    simp only [minLenOf, List.map_cons]
    rcases List.mem_cons.mp h with rfl | hmem
    · exact foldl_min_le_init _ _
    · exact foldl_min_le_mem _ _ (List.mem_map_of_mem _ hmem)

lemma buildChartData_some_eq {xml : List Char} {sheetData : List (List CellValue)}
    {cd : ChartData} (h : buildChartData xml sheetData = some cd) :
    cd.datasets.map (fun ds => ds.data) =
      (survivingSeqs xml sheetData).map
        (fun l => l.take (minLenOf (survivingSeqs xml sheetData))) ∧
    cd.labels =
      (if resolvedLabels xml sheetData = [] then
        (List.range (minLenOf (survivingSeqs xml sheetData))).map (fun i => natToChars (i + 1))
      else (resolvedLabels xml sheetData).take (minLenOf (survivingSeqs xml sheetData))) := by
  have hds0 : (((parseChartXml xml).seriesRefs.map (fun series =>
      ({ label := jsLabelOr series.name,
         data := (extractDataFromSheet sheetData series.valueRef).filterMap coerceChartNum,
         color := series.color } : ChartDataset))).filter
        (fun ds => ¬(ds.data = []))).map (fun ds => ds.data) =
      survivingSeqs xml sheetData := by
    rw [survivingSeqs, List.filter_map, List.filter_map, List.map_map]
    rfl
  simp only [buildChartData] at h
  split at h
  · cases h
  · cases h
    refine ⟨?_, ?_⟩
    · rw [← hds0, List.map_map, List.map_map]
      rfl
    · rw [← hds0]
      have hlab : (match (parseChartXml xml).categoryRef with
          | some r => (extractDataFromSheet sheetData r).map cellToString
          | none => ([] : List (List Char))) = resolvedLabels xml sheetData := rfl
      rw [hlab]
      by_cases hre : resolvedLabels xml sheetData = []
      · rw [if_pos (by rw [hre]; rfl), if_pos hre]
      · rw [if_neg (by
          intro hcon
          exact hre (List.length_eq_zero.mp hcon)), if_neg hre]

/-- C2 (amended): in every built chart, all dataset sequences have equal
length, namely the minimum length over the surviving series; the label
sequence is truncated to at most that length — its length is the minimum
of the resolved label count and that length (and exactly that length when
labels are synthesized); the two agree whenever no labels were resolved
or at least that many labels were resolved. -/
theorem buildChartData_length_normalization (xml : List Char)
    (sheetData : List (List CellValue)) (cd : ChartData)
    (h : buildChartData xml sheetData = some cd) :
    (∀ ds ∈ cd.datasets, ds.data.length = minLenOf (survivingSeqs xml sheetData)) ∧
    cd.labels.length =
      (if resolvedLabels xml sheetData = [] then minLenOf (survivingSeqs xml sheetData)
       else min (resolvedLabels xml sheetData).length
         (minLenOf (survivingSeqs xml sheetData))) ∧
    ((resolvedLabels xml sheetData = [] ∨
        minLenOf (survivingSeqs xml sheetData) ≤ (resolvedLabels xml sheetData).length) →
      ∀ ds ∈ cd.datasets, ds.data.length = cd.labels.length) := by
  obtain ⟨hd, hl⟩ := buildChartData_some_eq h
  have part1 : ∀ ds ∈ cd.datasets, ds.data.length = minLenOf (survivingSeqs xml sheetData) := by
    intro ds hds
    have hmem : ds.data ∈ cd.datasets.map (fun ds => ds.data) :=
      List.mem_map_of_mem _ hds
    rw [hd] at hmem
    obtain ⟨l, hlmem, hleq⟩ := List.mem_map.mp hmem
    rw [← hleq, List.length_take]
    exact Nat.min_eq_left (minLenOf_le hlmem)
  have part2 : cd.labels.length =
      (if resolvedLabels xml sheetData = [] then minLenOf (survivingSeqs xml sheetData)
       else min (resolvedLabels xml sheetData).length
         (minLenOf (survivingSeqs xml sheetData))) := by
    rw [hl]
    by_cases hre : resolvedLabels xml sheetData = []
    · rw [if_pos hre, if_pos hre, List.length_map, List.length_range]
    · rw [if_neg hre, if_neg hre, List.length_take, Nat.min_comm]
  refine ⟨part1, part2, ?_⟩
  intro hc ds hds
  rw [part1 ds hds, part2]
  rcases hc with hre | hge
  · rw [if_pos hre]
  · by_cases hre : resolvedLabels xml sheetData = []
    · rw [if_pos hre]
    · rw [if_neg hre, Nat.min_eq_right hge]

/-- Counterexample for C2 as stated: a chart whose category reference
resolves to a single label while its one series has three values; the
built chart's datasets have length 3 but the label sequence has length 1,
so the datasets' common length is not the label sequence length. -/
theorem buildChartData_labels_shorter_cex :
    ((buildChartData
        ("<c:cat><c:f>A1</c:f></c:cat><c:ser><c:val><c:f>B1:B3</c:f></c:val></c:ser>".toList)
        [[CellValue.str ("L1".toList), CellValue.num 1],
         [CellValue.null, CellValue.num 2],
         [CellValue.null, CellValue.num 3]]).map
      (fun cd => (cd.labels.length, cd.datasets.map (fun ds => ds.data.length)))) =
      some (1, [3]) ∧ (1 : ℕ) ≠ 3 :=
  ⟨by decide, by decide⟩

/-- Witness for C2 (amended): two series of lengths 5 and 3 with five
resolved labels — datasets and labels all end up length 3. -/
theorem buildChartData_length_normalization_witness :
    buildChartData
        (String.toList
          "<c:cat><c:f>A1:A5</c:f></c:cat><c:ser><c:val><c:f>B1:B5</c:f></c:val></c:ser><c:ser><c:val><c:f>C1:C3</c:f></c:val></c:ser>")
        [[CellValue.str ("a".toList), CellValue.num 1, CellValue.num 10],
         [CellValue.str ("b".toList), CellValue.num 2, CellValue.num 20],
         [CellValue.str ("c".toList), CellValue.num 3, CellValue.num 30],
         [CellValue.str ("d".toList), CellValue.num 4, CellValue.num 40],
         [CellValue.str ("e".toList), CellValue.num 5, CellValue.num 50]] =
      some
        { type := ("bar".toList), horizontal := false, stacked := false,
          title := none, xAxisTitle := none, yAxisTitle := none,
          labels := [("a".toList), ("b".toList), ("c".toList)],
          datasets :=
            [{ label := ("Series".toList), data := [1, 2, 3], color := none },
             { label := ("Series".toList), data := [10, 20, 30], color := none }] } ∧
    minLenOf (survivingSeqs
        (String.toList
          "<c:cat><c:f>A1:A5</c:f></c:cat><c:ser><c:val><c:f>B1:B5</c:f></c:val></c:ser><c:ser><c:val><c:f>C1:C3</c:f></c:val></c:ser>")
        [[CellValue.str ("a".toList), CellValue.num 1, CellValue.num 10],
         [CellValue.str ("b".toList), CellValue.num 2, CellValue.num 20],
         [CellValue.str ("c".toList), CellValue.num 3, CellValue.num 30],
         [CellValue.str ("d".toList), CellValue.num 4, CellValue.num 40],
         [CellValue.str ("e".toList), CellValue.num 5, CellValue.num 50]]) = 3 ∧
    (∀ ds ∈
        ({ type := ("bar".toList), horizontal := false, stacked := false,
           title := none, xAxisTitle := none, yAxisTitle := none,
           labels := [("a".toList), ("b".toList), ("c".toList)],
           datasets :=
             [{ label := ("Series".toList), data := [1, 2, 3], color := none },
              { label := ("Series".toList), data := [10, 20, 30], color := none }] } :
          ChartData).datasets,
      ds.data.length =
        ({ type := ("bar".toList), horizontal := false, stacked := false,
           title := none, xAxisTitle := none, yAxisTitle := none,
           labels := [("a".toList), ("b".toList), ("c".toList)],
           datasets :=
             [{ label := ("Series".toList), data := [1, 2, 3], color := none },
              { label := ("Series".toList), data := [10, 20, 30], color := none }] } :
          ChartData).labels.length) := by
  refine ⟨by decide, by decide, ?_⟩
  exact (buildChartData_length_normalization
    (String.toList
      "<c:cat><c:f>A1:A5</c:f></c:cat><c:ser><c:val><c:f>B1:B5</c:f></c:val></c:ser><c:ser><c:val><c:f>C1:C3</c:f></c:val></c:ser>")
    [[CellValue.str ("a".toList), CellValue.num 1, CellValue.num 10],
     [CellValue.str ("b".toList), CellValue.num 2, CellValue.num 20],
     [CellValue.str ("c".toList), CellValue.num 3, CellValue.num 30],
     [CellValue.str ("d".toList), CellValue.num 4, CellValue.num 40],
     [CellValue.str ("e".toList), CellValue.num 5, CellValue.num 50]]
    { type := ("bar".toList), horizontal := false, stacked := false,
      title := none, xAxisTitle := none, yAxisTitle := none,
      labels := [("a".toList), ("b".toList), ("c".toList)],
      datasets :=
        [{ label := ("Series".toList), data := [1, 2, 3], color := none },
         { label := ("Series".toList), data := [10, 20, 30], color := none }] }
    (by decide)).2.2 (Or.inr (by decide))

/-- Spec-side coercion for C3 as stated: numeric coercion following the
classifier's stripping rules (strip `,`, `$`, `%`, then parse), with
non-numeric / NaN / non-finite entries dropped. -/
def specStripCoerce (v : CellValue) : Option ℚ :=
  match v with
  | .num q => some q
  | .str s =>
    match jsParseFloat (stripCommaDollarPct s) with
    | some (.fin q) => some q
    | _ => none
  | _ => none

/-- Counterexample for C3 as stated: for the cell text `1,234` the
builder's coercion gives 1 (plain `parseFloat`, no stripping) while the
classifier's stripping rules give 1234, so the built dataset is not the
stripped-coercion sequence. -/
theorem buildChartData_no_stripping_cex :
    ((buildChartData ("<c:ser><c:val><c:f>A1</c:f></c:val></c:ser>".toList)
        [[CellValue.str ("1,234".toList)]]).map
      (fun cd => cd.datasets.map (fun ds => ds.data))) = some [[mkRatK 1 1]] ∧
    (extractDataFromSheet [[CellValue.str ("1,234".toList)]] ("A1".toList)).filterMap
        specStripCoerce = [mkRatK 1234 1] ∧
    mkRatK 1 1 ≠ mkRatK 1234 1 :=
  ⟨by decide, by decide, by decide⟩

/-- C3 (amended): every dataset of a built chart comes from some parsed
series by extracting the raw values of its value reference and coercing
each entry with plain JS `parseFloat` on its string form — with no
stripping of `,`, `$`, `%` — filtering out null/blank, NaN and
non-finite entries, then truncating to the common minimum length. -/
theorem buildChartData_series_coercion (xml : List Char)
    (sheetData : List (List CellValue)) (cd : ChartData)
    (h : buildChartData xml sheetData = some cd) :
    ∀ ds ∈ cd.datasets, ∃ s ∈ (parseChartXml xml).seriesRefs,
      ds.data = (seriesNumData sheetData s.valueRef).take
        (minLenOf (survivingSeqs xml sheetData)) := by
  intro ds hds
  have hmem : ds.data ∈ cd.datasets.map (fun ds => ds.data) :=
    List.mem_map_of_mem _ hds
  rw [(buildChartData_some_eq h).1] at hmem
  obtain ⟨l, hlmem, hleq⟩ := List.mem_map.mp hmem
  have hlmem2 : l ∈ ((parseChartXml xml).seriesRefs.map
      (fun s => seriesNumData sheetData s.valueRef)) :=
    List.mem_of_mem_filter hlmem
  obtain ⟨s, hsmem, hseq⟩ := List.mem_map.mp hlmem2
  exact ⟨s, hsmem, by rw [← hleq, ← hseq]⟩

/-- Witness for C3 (amended) at a one-series chart over the single cell
`1,234`: the built dataset `[1]` is the plain-parseFloat coercion of the
extracted values, truncated to the minimum length. -/
theorem buildChartData_series_coercion_witness :
    buildChartData ("<c:ser><c:val><c:f>A1</c:f></c:val></c:ser>".toList)
        [[CellValue.str ("1,234".toList)]] =
      some
        { type := ("bar".toList), horizontal := false, stacked := false,
          title := none, xAxisTitle := none, yAxisTitle := none,
          labels := [['1']],
          datasets := [{ label := ("Series".toList), data := [mkRatK 1 1], color := none }] } ∧
    (∃ s ∈ (parseChartXml ("<c:ser><c:val><c:f>A1</c:f></c:val></c:ser>".toList)).seriesRefs,
      ([mkRatK 1 1] : List ℚ) =
        (seriesNumData [[CellValue.str ("1,234".toList)]] s.valueRef).take
          (minLenOf (survivingSeqs ("<c:ser><c:val><c:f>A1</c:f></c:val></c:ser>".toList)
            [[CellValue.str ("1,234".toList)]]))) := by
  refine ⟨by decide, ?_⟩
  exact buildChartData_series_coercion
    ("<c:ser><c:val><c:f>A1</c:f></c:val></c:ser>".toList)
    [[CellValue.str ("1,234".toList)]]
    { type := ("bar".toList), horizontal := false, stacked := false,
      title := none, xAxisTitle := none, yAxisTitle := none,
      labels := [['1']],
      datasets := [{ label := ("Series".toList), data := [mkRatK 1 1], color := none }] }
    (by decide)
    { label := ("Series".toList), data := [mkRatK 1 1], color := none } (by decide)

-- ===================== codebook extraction =====================

/-- JS truthiness of a cell value (`v || ''` falls back on falsy
values: null/undefined, empty string, 0, false, NaN). -/
def cvTruthy : CellValue → Bool
  | .num q => ¬(q = 0)
  | .str s => ¬(s = [])
  | .boolV b => b
  | .date => true
  | .null => false

/-- `String(row[i] || '').trim()` (and `row[2] ? String(row[2]).trim() : ''`,
which computes the same text). -/
def cbCellText (row : List CellValue) (i : ℕ) : List Char :=
  let c := row.getD i CellValue.null
  if cvTruthy c then trimC (cellToString c) else []

/-- The first cell's text of a codebook row. -/
def cbFirst (row : List CellValue) : List Char := cbCellText row 0

/-- The second cell's text of a codebook row. -/
def cbSecond (row : List CellValue) : List Char := cbCellText row 1

/-- The third cell's text of a codebook row. -/
def cbThird (row : List CellValue) : List Char := cbCellText row 2

/-- Header-row skip: first cell contains `column` and second contains
`variable`, case-insensitively. -/
def cbHeaderSkip (row : List CellValue) : Bool :=
  hasSub (toLowerList (cbFirst row)) ("column".toList) &&
    hasSub (toLowerList (cbSecond row)) ("variable".toList)

/-- The pattern `/^column\s*[a-z]$/i`: the lowered text is `column`, then
whitespace, then exactly one letter. -/
def columnLetterPat (s : List Char) : Bool :=
  let ls := toLowerList s
  if ("column".toList).isPrefixOf ls then
    match (ls.drop 6).dropWhile isWsChar with
    | [c] => 'a' ≤ c ∧ c ≤ 'z'
    | _ => false
  else false

/-- `firstCell.toLowerCase().startsWith('column')`. -/
def cbStartsWithColumn (row : List CellValue) : Bool :=
  ("column".toList).isPrefixOf (toLowerList (cbFirst row))

/-- JS object assignment `obj[k] = v`: replace in place or append. -/
def upsert {V : Type} (cb : List (List Char × V)) (k : List Char) (v : V) :
    List (List Char × V) :=
  match cb with
  | [] => [(k, v)]
  | (k2, v2) :: t => if k2 = k then (k2, v) :: t else (k2, v2) :: upsert t k v

/-- Property lookup on an association-list object. -/
def lookupCB {V : Type} (k : List Char) : List (List Char × V) → Option V
  | [] => none
  | (k2, v2) :: t => if k2 = k then some v2 else lookupCB k t

/-- One row of `extractCodebook`'s scan. -/
def cbStep (cb : List (List Char × List Char)) (row : List CellValue) :
    List (List Char × List Char) :=
  if row.length < 2 then cb
  else if cbHeaderSkip row then cb
  else if columnLetterPat (cbFirst row) ∧ ¬(cbSecond row = []) then
    upsert cb (cbSecond row) (if ¬(cbThird row = []) then cbThird row else cbSecond row)
  else if ¬(cbFirst row = []) ∧ ¬(cbSecond row = []) ∧ ¬(cbStartsWithColumn row = true) then
    upsert cb (cbFirst row) (cbSecond row)
  else cb

/-- `extractCodebook` from excelAnalyzer.ts. -/
def extractCodebook (data : List (List CellValue)) :
    Option (List (List Char × List Char)) :=
  if data.length < 2 then none
  else
    let codebook := data.foldl cbStep []
    if codebook = [] then none else some codebook

/-- The key a row contributes to the codebook, if any. -/
def cbKeyOf (row : List CellValue) : Option (List Char) :=
  if row.length < 2 then none
  else if cbHeaderSkip row then none
  else if columnLetterPat (cbFirst row) ∧ ¬(cbSecond row = []) then some (cbSecond row)
  else if ¬(cbFirst row = []) ∧ ¬(cbSecond row = []) ∧ ¬(cbStartsWithColumn row = true) then
    some (cbFirst row)
  else none

/-- The value a contributing row stores under its key. -/
def cbValOf (row : List CellValue) : List Char :=
  if columnLetterPat (cbFirst row) ∧ ¬(cbSecond row = []) then
    (if ¬(cbThird row = []) then cbThird row else cbSecond row)
  else cbSecond row

lemma lookupCB_upsert_self {V : Type} (cb : List (List Char × V)) (k : List Char) (v : V) :
    lookupCB k (upsert cb k v) = some v := by
  induction cb with
  | nil => simp [upsert, lookupCB]
  | cons h t ih =>
    obtain ⟨k2, v2⟩ := h
    by_cases hk : k2 = k <;> simp [upsert, lookupCB, hk, ih]

lemma lookupCB_upsert_ne {V : Type} (cb : List (List Char × V)) (k : List Char) (v : V)
    (k0 : List Char) (h : k ≠ k0) : lookupCB k0 (upsert cb k v) = lookupCB k0 cb := by
  induction cb with
  | nil => simp [upsert, lookupCB, h]
  | cons hd t ih =>
    obtain ⟨k2, v2⟩ := hd
    by_cases hk : k2 = k
    · subst hk
      simp [upsert, lookupCB, h]
    · simp [upsert, lookupCB, hk, ih]

lemma cbStep_of_keyOf_eq {row : List CellValue} {k : List Char}
    (hk : cbKeyOf row = some k) (cb : List (List Char × List Char)) :
    cbStep cb row = upsert cb k (cbValOf row) := by
  unfold cbKeyOf at hk
  unfold cbStep cbValOf
  split at hk
  · cases hk
  · split at hk
    · cases hk
    · split at hk
      · cases hk
        rename_i h1 h2 h3
        rw [if_neg h1, if_neg h2, if_pos h3, if_pos h3]
      · split at hk
        · cases hk
          rename_i h1 h2 h3 h4
          rw [if_neg h1, if_neg h2, if_neg h3, if_pos h4, if_neg h3]
        · cases hk

lemma cbStep_of_keyOf_ne {row : List CellValue} {k : List Char}
    (hk : cbKeyOf row ≠ some k) (cb : List (List Char × List Char)) :
    lookupCB k (cbStep cb row) = lookupCB k cb := by
  unfold cbKeyOf at hk
  unfold cbStep
  split
  · rfl
  · split
    · rfl
    · split
      · rename_i h1 h2 h3
        rw [if_neg h1, if_neg h2, if_pos h3] at hk
        exact lookupCB_upsert_ne cb _ _ k (fun hcon => hk (by rw [hcon]))
      · split
        · rename_i h1 h2 h3 h4
          rw [if_neg h1, if_neg h2, if_neg h3, if_pos h4] at hk
          exact lookupCB_upsert_ne cb _ _ k (fun hcon => hk (by rw [hcon]))
        · rfl

lemma foldl_cbStep_preserve (post : List (List CellValue))
    (cb : List (List Char × List Char)) (k : List Char)
    (h : ∀ r ∈ post, cbKeyOf r ≠ some k) :
    lookupCB k (post.foldl cbStep cb) = lookupCB k cb := by
  induction post generalizing cb with
  | nil => rfl
  | cons r t ih =>
    rw [List.foldl_cons, ih (cbStep cb r) (fun r2 h2 => h r2 (List.mem_cons_of_mem r h2)),
      cbStep_of_keyOf_ne (h r (List.mem_cons_self r t)) cb]

/-- Counterexample for C7 as stated: the row
`["column a", "variable", "desc"]` has a first cell matching
`column <letter>` and a non-empty second cell, yet the extractor's
header-skip rule (first cell contains `column`, second contains
`variable`) drops it, so the codebook does not map `variable` to
`desc`. -/
theorem extractCodebook_header_skip_cex :
    columnLetterPat (cbFirst
        [CellValue.str ("column a".toList), CellValue.str ("variable".toList),
         CellValue.str ("desc".toList)]) = true ∧
    cbSecond
        [CellValue.str ("column a".toList), CellValue.str ("variable".toList),
         CellValue.str ("desc".toList)] = ("variable".toList) ∧
    extractCodebook
        [[CellValue.str ("column a".toList), CellValue.str ("variable".toList),
          CellValue.str ("desc".toList)],
         [CellValue.str ("x".toList), CellValue.str ("y".toList)]] =
      some [(("x".toList), ("y".toList))] ∧
    lookupCB ("variable".toList) [(("x".toList), ("y".toList))] = none :=
  ⟨by decide, by decide, by decide, by decide⟩

/-- C7 (amended): in a description grid with at least two rows, every row
with at least two cells that is not skipped as a header row, whose first
cell matches `column <letter>` and whose second cell is non-empty, maps
the second-cell text to the third-cell text (or to the second-cell text
itself when the third is empty) in the extracted codebook — provided no
later row contributes the same key (later rows overwrite earlier
ones). -/
theorem extractCodebook_pattern_maps (pre post : List (List CellValue))
    (row : List CellValue)
    (hlen : 2 ≤ (pre ++ row :: post).length)
    (hskip : cbHeaderSkip row = false)
    (hpat : columnLetterPat (cbFirst row) = true)
    (hsnd : cbSecond row ≠ [])
    (hpost : ∀ r ∈ post, cbKeyOf r ≠ some (cbSecond row)) :
    ∃ cb, extractCodebook (pre ++ row :: post) = some cb ∧
      lookupCB (cbSecond row) cb =
        some (if ¬(cbThird row = []) then cbThird row else cbSecond row) := by
  have hrowlen : ¬(row.length < 2) := by
    intro hcon
    refine hsnd ?_
    unfold cbSecond cbCellText
    rw [List.getD_eq_default _ _ (by omega)]
    rfl
  have hkey : cbKeyOf row = some (cbSecond row) := by
    unfold cbKeyOf
    rw [if_neg hrowlen, if_neg (by simp [hskip]), if_pos ⟨hpat, hsnd⟩]
  have hval : cbValOf row = (if ¬(cbThird row = []) then cbThird row else cbSecond row) := by
    unfold cbValOf
    rw [if_pos ⟨hpat, hsnd⟩]
  have hfold : lookupCB (cbSecond row) ((pre ++ row :: post).foldl cbStep []) =
      some (if ¬(cbThird row = []) then cbThird row else cbSecond row) := by
    rw [List.foldl_append, List.foldl_cons,
      foldl_cbStep_preserve post _ _ hpost,
      cbStep_of_keyOf_eq hkey, hval,
      lookupCB_upsert_self]
  refine ⟨(pre ++ row :: post).foldl cbStep [], ?_, hfold⟩
  unfold extractCodebook
  rw [if_neg (by omega)]
  rw [if_neg (by
    intro hcon
    rw [hcon] at hfold
    exact Option.noConfusion hfold)]

/-- Witness for C7 (amended) at the two-row description sheet from the
spec scenario; the full codebook is exactly the two expected pairs. -/
theorem extractCodebook_pattern_maps_witness :
    (∃ cb,
      extractCodebook
          [[CellValue.str ("Column A".toList), CellValue.str ("Age".toList),
            CellValue.str ("Age in years".toList)],
           [CellValue.str ("Column B".toList), CellValue.str ("Sex".toList),
            CellValue.str ("M/F".toList)]] = some cb ∧
      lookupCB ("Age".toList) cb = some ("Age in years".toList)) ∧
    extractCodebook
        [[CellValue.str ("Column A".toList), CellValue.str ("Age".toList),
          CellValue.str ("Age in years".toList)],
         [CellValue.str ("Column B".toList), CellValue.str ("Sex".toList),
          CellValue.str ("M/F".toList)]] =
      some [(("Age".toList), ("Age in years".toList)), (("Sex".toList), ("M/F".toList))] := by
  refine ⟨?_, by decide⟩
  have h := extractCodebook_pattern_maps []
    [[CellValue.str ("Column B".toList), CellValue.str ("Sex".toList),
      CellValue.str ("M/F".toList)]]
    [CellValue.str ("Column A".toList), CellValue.str ("Age".toList),
     CellValue.str ("Age in years".toList)]
    (by decide) (by decide) (by decide) (by decide) (by decide)
  obtain ⟨cb, h1, h2⟩ := h
  have e1 : cbSecond
      [CellValue.str ("Column A".toList), CellValue.str ("Age".toList),
       CellValue.str ("Age in years".toList)] = ("Age".toList) := by decide
  have e2 : (if ¬(cbThird
        [CellValue.str ("Column A".toList), CellValue.str ("Age".toList),
         CellValue.str ("Age in years".toList)] = []) then
      cbThird
        [CellValue.str ("Column A".toList), CellValue.str ("Age".toList),
         CellValue.str ("Age in years".toList)]
    else cbSecond
        [CellValue.str ("Column A".toList), CellValue.str ("Age".toList),
         CellValue.str ("Age in years".toList)]) = ("Age in years".toList) := by decide
  rw [e2, e1] at h2
  exact ⟨cb, h1, h2⟩

-- ===================== parseFloat vs whitespace stripping =====================

lemma isDigit_not_ws (c : Char) (h : c.isDigit = true) : isWsChar c = false := by
  by_contra hw
  have hw2 : isWsChar c = true := by
    cases hcase : isWsChar c
    · exact absurd hcase hw
    · rfl
  unfold isWsChar at hw2
  have := of_decide_eq_true hw2
  rcases this with h1 | h1 | h1 | h1 | h1 | h1 <;> subst h1 <;> exact absurd h (by decide)

lemma infinity_filter_ws :
    ("Infinity".toList).filter (fun ch => !(isWsChar ch)) = "Infinity".toList := by
  decide


lemma parseMag_isSome_iff (l : List Char) (pos : Bool) :
    (parseMag l pos).isSome = true ↔
      (("Infinity".toList).isPrefixOf l = true ∨
        ¬(l.takeWhile Char.isDigit = [] ∧
          (if (l.drop (l.takeWhile Char.isDigit).length).headD 'x' = '.' then
            ((l.drop (l.takeWhile Char.isDigit).length).drop 1).takeWhile Char.isDigit
          else ([] : List Char)) = [])) := by
  simp only [parseMag]
  by_cases hInf : ("Infinity".toList).isPrefixOf l = true
  · rw [if_pos hInf]
    exact iff_of_true rfl (Or.inl hInf)
  · rw [if_neg hInf]
    constructor
    · intro hs
      right
      intro hcon
      rw [if_pos hcon] at hs
      cases hs
    · intro hor
      rcases hor with h1 | h1
      · exact absurd h1 hInf
      · rw [if_neg h1]
        rfl

lemma parseMag_filter_ws (l : List Char) (pos : Bool)
    (h : (parseMag l pos).isSome = true) :
    (parseMag (l.filter (fun ch => !(isWsChar ch))) pos).isSome = true := by
  rw [parseMag_isSome_iff] at h ⊢
  rcases h with hInf | hds
  · left
    obtain ⟨rest, hrest⟩ := List.isPrefixOf_iff_prefix.mp hInf
    rw [← hrest, List.filter_append, infinity_filter_ws]
    exact List.isPrefixOf_iff_prefix.mpr ⟨_, rfl⟩
  · right
    by_cases hd : l.takeWhile Char.isDigit = []
    · -- fractional-digits case: l starts with a dot followed by a digit
      have hfs : ¬((if (l.drop (l.takeWhile Char.isDigit).length).headD 'x' = '.' then
          ((l.drop (l.takeWhile Char.isDigit).length).drop 1).takeWhile Char.isDigit
        else ([] : List Char)) = []) := fun hcon => hds ⟨hd, hcon⟩
      rw [hd, List.length_nil, List.drop_zero] at hfs
      cases l with
      | nil =>
        rw [show ([] : List Char).headD 'x' = 'x' from rfl, if_neg (by decide)] at hfs
        exact absurd rfl hfs
      | cons c v =>
        by_cases hc : c = '.'
        · subst hc
          rw [List.headD_cons, if_pos rfl, List.drop_succ_cons, List.drop_zero] at hfs
          cases hv : v.takeWhile Char.isDigit with
          | nil => exact absurd hv hfs
          | cons f fs2 =>
            have hveq : v = (f :: fs2) ++ v.dropWhile Char.isDigit := by
              conv_lhs => rw [← List.takeWhile_append_dropWhile (p := Char.isDigit) (l := v)]
              rw [hv]
            have hfsdig : ∀ x ∈ f :: fs2, x.isDigit = true := by
              intro x hx
              exact List.mem_takeWhile_imp (by rw [hv]; exact hx)
            have hfdig : f.isDigit = true := hfsdig f (List.mem_cons_self _ _)
            have hfilter : ('.' :: v).filter (fun ch => !(isWsChar ch)) =
                '.' :: ((f :: fs2) ++
                  (v.dropWhile Char.isDigit).filter (fun ch => !(isWsChar ch))) := by
              rw [List.filter_cons, if_pos (by decide : (fun ch => !(isWsChar ch)) '.' = true)]
              congr 1
              conv_lhs => rw [hveq]
              rw [List.filter_append]
              congr 1
              rw [List.filter_eq_self]
              intro a ha
              have := isDigit_not_ws a (hfsdig a ha)
              simp [this]
            rw [hfilter]
            have hA : List.takeWhile Char.isDigit
                ('.' :: ((f :: fs2) ++
                  (v.dropWhile Char.isDigit).filter (fun ch => !(isWsChar ch)))) = [] := by
              rw [List.takeWhile_cons, if_neg (by decide)]
            rw [hA, List.length_nil, List.drop_zero, List.headD_cons, if_pos rfl,
              List.drop_succ_cons, List.drop_zero, List.cons_append, List.takeWhile_cons,
              if_pos hfdig]
            intro hcon
            cases hcon.2
        · rw [List.headD_cons, if_neg hc] at hfs
          exact absurd rfl hfs
    · -- integer-digits case: the filtered text still starts with a digit
      cases hds0 : l.takeWhile Char.isDigit with
      | nil => exact absurd hds0 hd
      | cons d ds2 =>
        have hleq : l = (d :: ds2) ++ l.dropWhile Char.isDigit := by
          conv_lhs => rw [← List.takeWhile_append_dropWhile (p := Char.isDigit) (l := l)]
          rw [hds0]
        have hddig : ∀ x ∈ d :: ds2, x.isDigit = true := by
          intro x hx
          exact List.mem_takeWhile_imp (by rw [hds0]; exact hx)
        have hfilter : l.filter (fun ch => !(isWsChar ch)) =
            (d :: ds2) ++ (l.dropWhile Char.isDigit).filter (fun ch => !(isWsChar ch)) := by
          conv_lhs => rw [hleq]
          rw [List.filter_append]
          congr 1
          rw [List.filter_eq_self]
          intro a ha
          have := isDigit_not_ws a (hddig a ha)
          simp [this]
        rw [hfilter, List.cons_append, List.takeWhile_cons,
          if_pos (hddig d (List.mem_cons_self _ _))]
        intro hcon
        cases hcon.1

lemma dropWhile_head_not (p : Char → Bool) (l : List Char) {c : Char} {r : List Char}
    (h : l.dropWhile p = c :: r) : p c = false := by
  induction l with
  | nil => cases h
  | cons a t ih =>
    rw [List.dropWhile_cons] at h
    by_cases hpa : p a = true
    · rw [if_pos hpa] at h
      exact ih h
    · rw [if_neg hpa] at h
      injection h with h1 _
      subst h1
      simpa using hpa

lemma jsParseFloat_filter_ws (x : List Char)
    (h : (jsParseFloat x).isSome = true) :
    (jsParseFloat (x.filter (fun ch => !(isWsChar ch)))).isSome = true := by
  unfold jsParseFloat at h ⊢
  have hfx : x.filter (fun ch => !(isWsChar ch)) =
      (x.dropWhile isWsChar).filter (fun ch => !(isWsChar ch)) := by
    conv_lhs => rw [← List.takeWhile_append_dropWhile (p := isWsChar) (l := x)]
    rw [List.filter_append, List.filter_eq_nil_iff.mpr ?_, List.nil_append]
    intro c hc
    have := List.mem_takeWhile_imp hc
    simp [this]
  rw [hfx]
  have hdw : ∀ (m : List Char),
      (m.filter (fun ch => !(isWsChar ch))).dropWhile isWsChar =
        m.filter (fun ch => !(isWsChar ch)) := by
    intro m
    cases hm : m.filter (fun ch => !(isWsChar ch)) with
    | nil => rfl
    | cons c t =>
      have hc : c ∈ m.filter (fun ch => !(isWsChar ch)) := by
        rw [hm]
        exact List.mem_cons_self _ _
      have hct := List.of_mem_filter hc
      rw [List.dropWhile_cons, if_neg]
      simp only [Bool.not_eq_true'] at hct
      simp [hct]
  rw [hdw]
  cases ht : x.dropWhile isWsChar with
  | nil =>
    rw [ht] at h
    simp [parseNum] at h
  | cons c r =>
    have hcws : isWsChar c = false := dropWhile_head_not _ _ ht
    have hfcons : (c :: r).filter (fun ch => !(isWsChar ch)) =
        c :: r.filter (fun ch => !(isWsChar ch)) := by
      simp [List.filter_cons, hcws]
    rw [hfcons]
    rw [ht] at h
    simp only [parseNum] at h ⊢
    by_cases hplus : c = '+'
    · rw [if_pos hplus] at h ⊢
      exact parseMag_filter_ws r true h
    · by_cases hminus : c = '-'
      · rw [if_neg hplus, if_pos hminus] at h ⊢
        exact parseMag_filter_ws r false h
      · rw [if_neg hplus, if_neg hminus] at h ⊢
        have hres := parseMag_filter_ws (c :: r) true h
        rw [hfcons] at hres
        exact hres

lemma classify_numeric_extract (v : CellValue) (h : classifyVal v = Bucket.numeric) :
    (extractNumericValue v).isSome = true := by
  cases v with
  | num q => rfl
  | boolV b => exact absurd h (by simp [classifyVal])
  | date => exact absurd h (by simp [classifyVal])
  | null => exact absurd h (by simp [classifyVal])
  | str s =>
    simp only [classifyVal] at h
    split_ifs at h with h1 h2
    unfold extractNumericValue stripCommaDollarPctWs
    exact jsParseFloat_filter_ws _ h2.1

lemma detect_uniqueCount_iff (values allValues : List CellValue) :
    ((detectColumnType values allValues).uniqueCount.isSome = true ↔
      ((detectColumnType values allValues).type = RawColumnType.numeric ∨
        (detectColumnType values allValues).type = RawColumnType.categorical)) := by
  simp only [detectColumnType]
  split_ifs <;> simp

lemma detect_result_cases (values allValues : List CellValue) :
    (detectColumnType values allValues).uniqueCount = none ∨
    ((detectColumnType values allValues).uniqueCount =
        some (uniqueNumsOf allValues).length ∧
      0 < (nonNullOf values).countP (fun v => classifyVal v = Bucket.numeric)) := by
  have hpos : ¬((nonNullOf values).length = 0) →
      4 * (nonNullOf values).length ≤
        5 * (nonNullOf values).countP (fun v => classifyVal v = Bucket.numeric) →
      0 < (nonNullOf values).countP (fun v => classifyVal v = Bucket.numeric) := by
    intro h0 hn
    omega
  simp only [detectColumnType]
  split_ifs with h0 hb hd ht hn h20 hall
  · left; rfl
  · left; rfl
  · left; rfl
  · left; rfl
  · right; exact ⟨rfl, hpos h0 hn⟩
  · right; exact ⟨rfl, hpos h0 hn⟩
  · right; exact ⟨rfl, hpos h0 hn⟩
  · left; rfl

lemma detect_uniqueCount_spec (values allValues : List CellValue)
    (hsub : ∀ v ∈ values, v ∈ allValues) {n : ℕ}
    (h : (detectColumnType values allValues).uniqueCount = some n) :
    n = (uniqueNumsOf allValues).length ∧ 1 ≤ n := by
  rcases detect_result_cases values allValues with hc | ⟨hc, hnum⟩
  · rw [hc] at h
    cases h
  · rw [hc] at h
    have hneq : n = (uniqueNumsOf allValues).length := (Option.some.inj h).symm
    refine ⟨hneq, ?_⟩
    obtain ⟨v, hvmem, hvp⟩ := List.countP_pos_iff.mp hnum
    have hvall : v ∈ allValues := hsub v (List.mem_of_mem_filter hvmem)
    have hvex : (extractNumericValue v).isSome = true :=
      classify_numeric_extract v (of_decide_eq_true hvp)
    obtain ⟨m, hm⟩ := Option.isSome_iff_exists.mp hvex
    have hmmem : m ∈ allValues.filterMap extractNumericValue :=
      List.mem_filterMap.mpr ⟨v, hvall, hm⟩
    have hdne : (uniqueNumsOf allValues) ≠ [] := by
      unfold uniqueNumsOf
      intro hcon
      have := (List.dedup_eq_nil _).mp hcon
      rw [this] at hmmem
      cases hmmem
    rw [hneq]
    exact List.length_pos.mpr hdne

-- ===================== workbook structural analysis =====================

/-- `ColumnInfo` from excelAnalyzer.ts (the `codes` field is never set by
the analyzer and is omitted). -/
structure ColumnInfo where
  header : List Char
  type : RawColumnType
  uniqueValues : Option ℕ
deriving DecidableEq

/-- Comparison on non-NaN JS numbers. -/
def JsNum.jle : JsNum → JsNum → Bool
  | .negInf, _ => true
  | _, .posInf => true
  | .posInf, .negInf => false
  | .posInf, .fin _ => false
  | .fin _, .negInf => false
  | .fin a, .fin b => a ≤ b

/-- `Math.min` of two non-NaN numbers. -/
def jsMin2 (a b : JsNum) : JsNum := if JsNum.jle a b then a else b

/-- `Math.max` of two non-NaN numbers. -/
def jsMax2 (a b : JsNum) : JsNum := if JsNum.jle a b then b else a

/-- JS addition on non-NaN numbers; `none` models NaN
(`Infinity + -Infinity`). -/
def jsAdd : JsNum → JsNum → Option JsNum
  | .fin a, .fin b => some (.fin (a + b))
  | .posInf, .negInf => none
  | .negInf, .posInf => none
  | .posInf, _ => some .posInf
  | _, .posInf => some .posInf
  | .negInf, _ => some .negInf
  | _, .negInf => some .negInf

/-- Division of a non-NaN number by a positive count. -/
def jsDivNat (a : JsNum) (n : ℕ) : JsNum :=
  match a with
  | .fin q => .fin (q / (n : ℚ))
  | .posInf => .posInf
  | .negInf => .negInf

/-- `Math.round(x * 100) / 100` (JS rounds half toward positive
infinity). -/
def jsRoundTo2 : JsNum → JsNum
  | .fin q => .fin (((q * 100 + 1 / 2).floor : ℚ) / 100)
  | .posInf => .posInf
  | .negInf => .negInf

/-- `ColumnStats` from excelAnalyzer.ts; `avg = none` models a NaN
average. -/
structure ColumnStats where
  min : JsNum
  max : JsNum
  avg : Option JsNum
  uniqueCount : ℕ
deriving DecidableEq

/-- `calculateStats` from excelAnalyzer.ts. -/
def calculateStats (values : List CellValue) : Option ColumnStats :=
  match values.filterMap extractNumericValue with
  | [] => none
  | n :: t =>
    some
      { min := jsRoundTo2 (t.foldl jsMin2 n),
        max := jsRoundTo2 (t.foldl jsMax2 n),
        avg := ((n :: t).foldl (fun acc m => acc.bind (fun a => jsAdd a m))
            (some (JsNum.fin 0))).map
          (fun s => jsRoundTo2 (jsDivNat s (n :: t).length)),
        uniqueCount := ((n :: t).dedup).length }

/-- A sample-row value after `parseValue`: a parsed number, the original
value, or null. -/
inductive ParsedValue where
  | pnum (n : JsNum)
  | pcell (v : CellValue)
  | pnull
deriving DecidableEq

/-- `parseValue` from excelAnalyzer.ts. -/
def parseValue (v : CellValue) : ParsedValue :=
  if v = CellValue.null ∨ v = CellValue.str [] then ParsedValue.pnull
  else
    match extractNumericValue v with
    | some n => ParsedValue.pnum n
    | none => ParsedValue.pcell v

/-- `ExcelSheetSummary` from excelAnalyzer.ts; the optional `stats`
object is modelled as a list that is empty exactly when the source omits
the field. -/
structure SheetSummary where
  name : List Char
  rowCount : ℕ
  columns : List (List Char × ColumnInfo)
  stats : List (List Char × ColumnStats)
  sample : List (List (List Char × ParsedValue))
deriving DecidableEq

/-- The header texts of a sheet: row 0's cells, `Column N` synthesized
for null/blank header cells, others `String(cell).trim()`. -/
def headersOf (data : List (List CellValue)) : List (List Char) :=
  (data.headD []).enum.map
    (fun p =>
      if p.2 = CellValue.null ∨ p.2 = CellValue.str [] then
        ("Column ".toList) ++ natToChars (p.1 + 1)
      else trimC (cellToString p.2))

/-- The indices (within the header row) of columns holding at least one
non-null, non-blank data value. -/
def nonEmptyColumnIndices (data : List (List CellValue)) : List ℕ :=
  (List.range (headersOf data).length).filter
    (fun idx => (data.drop 1).any (fun row => nonBlankCell (row.getD idx CellValue.null)))

/-- The full data column at an index. -/
def columnAll (data : List (List CellValue)) (idx : ℕ) : List CellValue :=
  (data.drop 1).map (fun row => row.getD idx CellValue.null)

/-- The classification sample: the first 100 data rows of a column. -/
def columnSample (data : List (List CellValue)) (idx : ℕ) : List CellValue :=
  ((data.drop 1).take 100).map (fun row => row.getD idx CellValue.null)

/-- The `ColumnInfo` the analyzer builds for one column. -/
def mkColumnInfo (data : List (List CellValue)) (idx : ℕ) : ColumnInfo :=
  let r := detectColumnType (columnSample data idx) (columnAll data idx)
  { header := (headersOf data).getD idx [], type := r.type, uniqueValues := r.uniqueCount }

/-- The per-sheet body of `analyzeExcelStructure` (excelAnalyzer.ts
673-781): `none` models a skipped sheet (fewer than 2 rows, or no
non-empty data column), `some` the pushed `ExcelSheetSummary`. -/
def analyzeSheet (name : List Char) (data : List (List CellValue)) : Option SheetSummary :=
  if data.length < 2 then none
  else if nonEmptyColumnIndices data = [] then none
  else
    some
      { name := name,
        rowCount := ((data.drop 1).filter (fun row => row.any nonBlankCell)).length,
        columns :=
          (nonEmptyColumnIndices data).foldl
            (fun acc idx => upsert acc (getColumnLetter idx) (mkColumnInfo data idx)) [],
        stats :=
          (nonEmptyColumnIndices data).foldl
            (fun acc idx =>
              if (mkColumnInfo data idx).type = RawColumnType.numeric then
                match calculateStats (columnAll data idx) with
                | some st => upsert acc ((headersOf data).getD idx []) st
                | none => acc
              else acc) [],
        sample :=
          ((data.drop 1).take 3).map
            (fun row =>
              (nonEmptyColumnIndices data).foldl
                (fun acc idx =>
                  upsert acc ((headersOf data).getD idx [])
                    (parseValue (row.getD idx CellValue.null))) []) }

/-- The structural core of `analyzeExcelStructure` from excelAnalyzer.ts:
the data-sheet pass over the named grids of the workbook.  The codebook
first pass never fails, and the chart/vision phase runs only after the
no-valid-sheets check throws, so the `Except` result captures exactly the
fatal-error behaviour; the `ok` value is the summary's `sheets`
sequence. -/
def analyzeExcelStructure (wb : List (List Char × List (List CellValue))) :
    Except (List Char) (List SheetSummary) :=
  let sheets := wb.filterMap (fun s => analyzeSheet s.1 s.2)
  if sheets = [] then Except.error ("No valid sheets found in workbook".toList)
  else Except.ok sheets

/-- C4: if every sheet of the workbook is skipped (fewer than 2 rows, or
zero non-empty data columns), the analysis aborts with the fatal
`No valid sheets found in workbook` error — no partial summary exists in
the `error` result — while one valid sheet suffices for an `ok` result,
so a skipped sheet by itself is not an error. -/
theorem analyzeExcelStructure_no_valid_sheets
    (wb : List (List Char × List (List CellValue))) :
    ((∀ p ∈ wb, p.2.length < 2 ∨ nonEmptyColumnIndices p.2 = []) →
      analyzeExcelStructure wb =
        Except.error ("No valid sheets found in workbook".toList)) ∧
    ((∃ p ∈ wb, ¬(p.2.length < 2) ∧ nonEmptyColumnIndices p.2 ≠ []) →
      ∃ ss, analyzeExcelStructure wb = Except.ok ss) := by
  constructor
  · intro h
    have hnil : wb.filterMap (fun s => analyzeSheet s.1 s.2) = [] := by
      rw [List.filterMap_eq_nil_iff]
      intro p hp
      rcases h p hp with h1 | h1
      · unfold analyzeSheet
        rw [if_pos h1]
      · unfold analyzeSheet
        by_cases h2 : p.2.length < 2
        · rw [if_pos h2]
        · rw [if_neg h2, if_pos h1]
    simp [analyzeExcelStructure, hnil]
  · intro hex
    obtain ⟨p, hp, h1, h2⟩ := hex
    have hsome : (analyzeSheet p.1 p.2).isSome = true := by
      unfold analyzeSheet
      rw [if_neg h1, if_neg h2]
      rfl
    obtain ⟨sh, hsh⟩ := Option.isSome_iff_exists.mp hsome
    have hmem : sh ∈ wb.filterMap (fun s => analyzeSheet s.1 s.2) :=
      List.mem_filterMap.mpr ⟨p, hp, hsh⟩
    have hne : wb.filterMap (fun s => analyzeSheet s.1 s.2) ≠ [] := by
      intro hcon
      rw [hcon] at hmem
      cases hmem
    unfold analyzeExcelStructure
    rw [if_neg hne]
    exact ⟨_, rfl⟩

/-- Witness for C4: a workbook whose single sheet has one row is a fatal
error; a workbook with one two-row sheet with data is analyzed
successfully. -/
theorem analyzeExcelStructure_no_valid_sheets_witness :
    analyzeExcelStructure [(("S1".toList), [[CellValue.str ("h".toList)]])] =
      Except.error ("No valid sheets found in workbook".toList) ∧
    (∃ ss, analyzeExcelStructure
        [(("S1".toList), [[CellValue.str ("h".toList)], [CellValue.str ("v".toList)]])] =
      Except.ok ss) :=
  ⟨(analyzeExcelStructure_no_valid_sheets
      [(("S1".toList), [[CellValue.str ("h".toList)]])]).1 (by decide),
   (analyzeExcelStructure_no_valid_sheets
      [(("S1".toList), [[CellValue.str ("h".toList)], [CellValue.str ("v".toList)]])]).2
     (by decide)⟩

lemma mem_upsert {V : Type} {cb : List (List Char × V)} {k : List Char} {v : V}
    {k2 : List Char} {v2 : V} (h : (k2, v2) ∈ upsert cb k v) :
    (k2 = k ∧ v2 = v) ∨ (k2, v2) ∈ cb := by
  induction cb with
  | nil =>
    unfold upsert at h
    have heq := List.mem_singleton.mp h
    injection heq with hk hv
    exact Or.inl ⟨hk, hv⟩
  | cons hd t ih =>
    obtain ⟨ka, va⟩ := hd
    unfold upsert at h
    by_cases hka : ka = k
    · rw [if_pos hka] at h
      rcases List.mem_cons.mp h with heq | hmem
      · injection heq with hk hv
        exact Or.inl ⟨hk.trans hka, hv⟩
      · exact Or.inr (List.mem_cons_of_mem _ hmem)
    · rw [if_neg hka] at h
      rcases List.mem_cons.mp h with heq | hmem
      · exact Or.inr (List.mem_cons.mpr (Or.inl heq))
      · rcases ih hmem with h1 | h1
        · exact Or.inl h1
        · exact Or.inr (List.mem_cons_of_mem _ h1)

lemma mem_foldl_upsert {V : Type} (key : ℕ → List Char) (val : ℕ → V) :
    ∀ (l : List ℕ) (init : List (List Char × V)) {k : List Char} {v : V},
      (k, v) ∈ l.foldl (fun acc i => upsert acc (key i) (val i)) init →
      (k, v) ∈ init ∨ ∃ i ∈ l, k = key i ∧ v = val i := by
  intro l
  induction l with
  | nil => intro init k v h; exact Or.inl h
  | cons i t ih =>
    intro init k v h
    rw [List.foldl_cons] at h
    rcases ih (upsert init (key i) (val i)) h with h1 | ⟨j, hj, hkj, hvj⟩
    · rcases mem_upsert h1 with ⟨hk, hv⟩ | h2
      · exact Or.inr ⟨i, List.mem_cons_self _ _, hk, hv⟩
      · exact Or.inl h2
    · exact Or.inr ⟨j, List.mem_cons_of_mem _ hj, hkj, hvj⟩

/-- C10: in every sheet of a successful analysis, a column's
`uniqueValues` field is present exactly when the column's type is Numeric
or Categorical, and a present value is the number of distinct numeric
values extracted from the full column — of the very workbook sheet that
produced this summary (`analyzeSheet p.1 p.2 = some sh`, with `ci` the
column record built from that sheet's column) — and is at least 1. -/
theorem analyze_uniqueValues (wb : List (List Char × List (List CellValue)))
    (ss : List SheetSummary) (hok : analyzeExcelStructure wb = Except.ok ss)
    (sh : SheetSummary) (hsh : sh ∈ ss) (k : List Char) (ci : ColumnInfo)
    (hci : (k, ci) ∈ sh.columns) :
    (ci.uniqueValues.isSome = true ↔
      (ci.type = RawColumnType.numeric ∨ ci.type = RawColumnType.categorical)) ∧
    (∀ n, ci.uniqueValues = some n →
      ∃ p ∈ wb, analyzeSheet p.1 p.2 = some sh ∧
        ∃ idx ∈ nonEmptyColumnIndices p.2,
          k = getColumnLetter idx ∧ ci = mkColumnInfo p.2 idx ∧
          n = (uniqueNumsOf (columnAll p.2 idx)).length ∧ 1 ≤ n) := by
  have hss : ss = wb.filterMap (fun s => analyzeSheet s.1 s.2) := by
    simp only [analyzeExcelStructure] at hok
    split at hok
    · cases hok
    · cases hok
      rfl
  rw [hss] at hsh
  obtain ⟨p, hp, hps⟩ := List.mem_filterMap.mp hsh
  have hps2 := hps
  unfold analyzeSheet at hps
  split at hps
  · cases hps
  · split at hps
    · cases hps
    · cases hps
      have hinv := mem_foldl_upsert getColumnLetter (mkColumnInfo p.2)
        (nonEmptyColumnIndices p.2) [] hci
      rcases hinv with hinit | ⟨idx, hidx, hk, hv⟩
      · cases hinit
      · subst hk
        subst hv
        have hsub : ∀ v ∈ columnSample p.2 idx, v ∈ columnAll p.2 idx := by
          intro v hv
          obtain ⟨row, hrow, hrv⟩ := List.mem_map.mp hv
          exact List.mem_map.mpr ⟨row, List.mem_of_mem_take hrow, hrv⟩
        constructor
        · have hiff := detect_uniqueCount_iff (columnSample p.2 idx) (columnAll p.2 idx)
          simpa [mkColumnInfo] using hiff
        · intro n hn
          have hn2 : (detectColumnType (columnSample p.2 idx)
              (columnAll p.2 idx)).uniqueCount = some n := by
            simpa [mkColumnInfo] using hn
          obtain ⟨hneq, hpos⟩ :=
            detect_uniqueCount_spec (columnSample p.2 idx) (columnAll p.2 idx) hsub hn2
          exact ⟨p, hp, hps2, idx, hidx, rfl, rfl, hneq, hpos⟩

/-- Witness for C10 at a one-sheet workbook whose single data column
holds the integers 1 and 2: the column classifies as Categorical with
`uniqueValues = some 2`, present, equal to the distinct count, and at
least 1. -/
theorem analyze_uniqueValues_witness :
    analyzeExcelStructure
        [(("S".toList),
          [[CellValue.str ("h".toList)], [CellValue.num 1], [CellValue.num 2]])] =
      Except.ok
        [{ name := ("S".toList), rowCount := 2,
           columns :=
             [(['A'],
               { header := ("h".toList), type := RawColumnType.categorical,
                 uniqueValues := some 2 })],
           stats := [],
           sample :=
             [[(("h".toList), ParsedValue.pnum (JsNum.fin 1))],
              [(("h".toList), ParsedValue.pnum (JsNum.fin 2))]] }] ∧
    (({ header := ("h".toList), type := RawColumnType.categorical,
        uniqueValues := some 2 } : ColumnInfo).uniqueValues.isSome = true ↔
      (({ header := ("h".toList), type := RawColumnType.categorical,
          uniqueValues := some 2 } : ColumnInfo).type = RawColumnType.numeric ∨
        ({ header := ("h".toList), type := RawColumnType.categorical,
           uniqueValues := some 2 } : ColumnInfo).type = RawColumnType.categorical)) ∧
    (∀ n,
      ({ header := ("h".toList), type := RawColumnType.categorical,
         uniqueValues := some 2 } : ColumnInfo).uniqueValues = some n →
      ∃ p ∈ [(("S".toList),
          [[CellValue.str ("h".toList)], [CellValue.num 1], [CellValue.num 2]])],
        analyzeSheet p.1 p.2 =
          some
            { name := ("S".toList), rowCount := 2,
              columns :=
                [(['A'],
                  { header := ("h".toList), type := RawColumnType.categorical,
                    uniqueValues := some 2 })],
              stats := [],
              sample :=
                [[(("h".toList), ParsedValue.pnum (JsNum.fin 1))],
                 [(("h".toList), ParsedValue.pnum (JsNum.fin 2))]] } ∧
        ∃ idx ∈ nonEmptyColumnIndices p.2,
          (['A'] : List Char) = getColumnLetter idx ∧
          ({ header := ("h".toList), type := RawColumnType.categorical,
             uniqueValues := some 2 } : ColumnInfo) = mkColumnInfo p.2 idx ∧
          n = (uniqueNumsOf (columnAll p.2 idx)).length ∧ 1 ≤ n) := by
  refine ⟨by decide, ?_, ?_⟩
  · exact (analyze_uniqueValues
      [(("S".toList),
        [[CellValue.str ("h".toList)], [CellValue.num 1], [CellValue.num 2]])]
      [{ name := ("S".toList), rowCount := 2,
         columns :=
           [(['A'],
             { header := ("h".toList), type := RawColumnType.categorical,
               uniqueValues := some 2 })],
         stats := [],
         sample :=
           [[(("h".toList), ParsedValue.pnum (JsNum.fin 1))],
            [(("h".toList), ParsedValue.pnum (JsNum.fin 2))]] }]
      (by decide)
      { name := ("S".toList), rowCount := 2,
        columns :=
          [(['A'],
            { header := ("h".toList), type := RawColumnType.categorical,
              uniqueValues := some 2 })],
        stats := [],
        sample :=
          [[(("h".toList), ParsedValue.pnum (JsNum.fin 1))],
           [(("h".toList), ParsedValue.pnum (JsNum.fin 2))]] }
      (by decide) ['A']
      { header := ("h".toList), type := RawColumnType.categorical,
        uniqueValues := some 2 }
      (by decide)).1
  · exact (analyze_uniqueValues
      [(("S".toList),
        [[CellValue.str ("h".toList)], [CellValue.num 1], [CellValue.num 2]])]
      [{ name := ("S".toList), rowCount := 2,
         columns :=
           [(['A'],
             { header := ("h".toList), type := RawColumnType.categorical,
               uniqueValues := some 2 })],
         stats := [],
         sample :=
           [[(("h".toList), ParsedValue.pnum (JsNum.fin 1))],
            [(("h".toList), ParsedValue.pnum (JsNum.fin 2))]] }]
      (by decide)
      { name := ("S".toList), rowCount := 2,
        columns :=
          [(['A'],
            { header := ("h".toList), type := RawColumnType.categorical,
              uniqueValues := some 2 })],
        stats := [],
        sample :=
          [[(("h".toList), ParsedValue.pnum (JsNum.fin 1))],
           [(("h".toList), ParsedValue.pnum (JsNum.fin 2))]] }
      (by decide) ['A']
      { header := ("h".toList), type := RawColumnType.categorical,
        uniqueValues := some 2 }
      (by decide)).2
